import Mathlib

/-!
Verification development for the p5.asciify "accurate" renderer plugin.

The plugin consists of four GLSL fragment shaders (character selection,
brightness sampling, color sampling, brightness splitting) and the
TypeScript lifecycle code of `P5AsciifyAccurateRenderer`
(`src/plugin/renderer/AccurateAsciiRenderer.ts`, bundled in the UMD build).

Shader arithmetic is embedded over `ℚ` (GLSL `mediump float` values are
modelled exactly; all constants appearing in the shaders are decimal
literals that are exact in `ℚ`).  Textures are modelled as total functions
from 2D coordinates to RGBA values.  Each shader's `main` becomes a Lean
function from its uniforms and the fragment coordinate to the fragment
color.
-/

namespace Accurate

/-- A GLSL `vec2` over exact rationals. -/
structure Vec2 where
  x : ℚ
  y : ℚ
deriving DecidableEq, Repr

/-- A GLSL `vec4` over exact rationals (components `x y z w` = RGBA). -/
structure Vec4 where
  x : ℚ
  y : ℚ
  z : ℚ
  w : ℚ
deriving DecidableEq, Repr

/-- A texture: `texture2D` lookup is function application. -/
def Tex : Type := Vec2 → Vec4

/-- GLSL `floor` on floats, modelled on `ℚ`. -/
def qfloor (q : ℚ) : ℚ := (⌊q⌋ : ℚ)

/-- GLSL `clamp(x, lo, hi)`. -/
def qclamp (v lo hi : ℚ) : ℚ := max lo (min v hi)

/-- GLSL `mod(x, y) = x - y * floor(x / y)`. -/
def qmod (a b : ℚ) : ℚ := a - b * qfloor (a / b)

/-- The luminance computed by the shaders: `0.299*r + 0.587*g + 0.114*b`. -/
def luminance (c : Vec4) : ℚ := (0.299 : ℚ) * c.x + (0.587 : ℚ) * c.y + (0.114 : ℚ) * c.z

/-!
## Shader source model and renderer lifecycle state

`AccurateAsciiRenderer.ts` builds each shader with
`createShader(vertexShader, fragSource)` where the vertex source is one
fixed string and the fragment source is either the output of one of the
three generator functions of `shaderGenerators.min`
(`generateCharacterSelectionShader(fontSize)`,
`generateBrightnessSampleShader(cellHeight, cellWidth)`,
`generateColorSampleShader(16, cellHeight, cellWidth)`) or the fixed
`brightnessSplit.frag` text.  Distinct generators produce syntactically
distinct source strings (they declare different uniforms), and a generator
embeds its numeric parameters literally in the source (as loop bounds and
array sizes), so a fragment source is faithfully represented by which
template produced it together with the exact parameters.
-/

/-- Fragment-shader source: template plus the parameters baked into it. -/
inductive FragSource where
  | generateCharacterSelectionShader (fontSize : ℕ)
  | generateBrightnessSampleShader (cellHeight cellWidth : ℕ)
  | generateColorSampleShader (buckets cellHeight cellWidth : ℕ)
  | brightnessSplit
deriving DecidableEq, Repr

/-- A source is generator-derived when some generator produces it. -/
def generatorDerived (s : FragSource) : Prop :=
  (∃ n, s = FragSource.generateCharacterSelectionShader n) ∨
  (∃ h w, s = FragSource.generateBrightnessSampleShader h w) ∨
  (∃ b h w, s = FragSource.generateColorSampleShader b h w)

/-- The grid collaborator fields read by the renderer. -/
structure GridInfo where
  cols : ℕ
  rows : ℕ
  width : ℕ
  height : ℕ
  cellWidth : ℕ
  cellHeight : ℕ
deriving DecidableEq, Repr

/-- The capture framebuffer fields read by the renderer. -/
structure CaptureInfo where
  width : ℕ
  height : ℕ
deriving DecidableEq, Repr

/-- The font-manager field read by the shader generators. -/
structure FontInfo where
  fontSize : ℕ
deriving DecidableEq, Repr

/-- A framebuffer's dimensions (as created/resized by the renderer). -/
structure Fb where
  width : ℕ
  height : ℕ
deriving DecidableEq, Repr

/-- The plugin-owned mutable fields of `P5AsciifyAccurateRenderer`:
the four compiled shaders and the two intermediate framebuffers.
(The host-owned framebuffers resized by `super.resizeFramebuffers()` are
out of scope.) -/
structure RendererState where
  characterSelectionShader : FragSource
  brightnessSampleShader : FragSource
  colorSampleShader : FragSource
  brightnessSplitShader : FragSource
  brightnessSampleFramebuffer : Fb
  brightnessSplitFramebuffer : Fb
deriving DecidableEq, Repr

/-- The constructor body: compiles the four shaders and creates the two
intermediate framebuffers (`density: 1`, width/height as written). -/
def constructState (grid : GridInfo) (capture : CaptureInfo) (font : FontInfo) :
    RendererState where
  characterSelectionShader := FragSource.generateCharacterSelectionShader font.fontSize
  brightnessSampleShader := FragSource.generateBrightnessSampleShader grid.cellHeight grid.cellWidth
  colorSampleShader := FragSource.generateColorSampleShader 16 grid.cellHeight grid.cellWidth
  brightnessSplitShader := FragSource.brightnessSplit
  brightnessSampleFramebuffer := ⟨grid.cols, grid.rows⟩
  brightnessSplitFramebuffer := ⟨capture.width, capture.height⟩

/-- Lifecycle hook `resizeFramebuffers()`: resizes the two plugin-owned framebuffers to the
current grid / capture dimensions; shader fields are not touched. -/
def resizeFramebuffers (grid : GridInfo) (capture : CaptureInfo) (st : RendererState) :
    RendererState :=
  { st with
    brightnessSampleFramebuffer := ⟨grid.cols, grid.rows⟩
    brightnessSplitFramebuffer := ⟨capture.width, capture.height⟩ }

/-- Lifecycle hook `resetShaders()`: recompiles the three generator-derived shaders from the
current font size and cell dimensions; `_brightnessSplitShader` and the
framebuffers are not touched. -/
def resetShaders (grid : GridInfo) (font : FontInfo) (st : RendererState) :
    RendererState :=
  { st with
    characterSelectionShader := FragSource.generateCharacterSelectionShader font.fontSize
    brightnessSampleShader := FragSource.generateBrightnessSampleShader grid.cellHeight grid.cellWidth
    colorSampleShader := FragSource.generateColorSampleShader 16 grid.cellHeight grid.cellWidth }

/-!
## Brightness split shader (`brightnessSplit.frag`)

Verbatim embedding of the fixed fragment shader: per source pixel, compare
its luminance against its cell's average brightness (read from the
brightness texture) and output a binary value, short-circuiting fully
transparent pixels.
-/

/-- The constant `EPSILON = 0.01` of `brightnessSplit.frag`. -/
def EPSILON : ℚ := (0.01 : ℚ)

/-- Uniforms of the brightness split shader. -/
structure BrightnessSplitUniforms where
  inputImage : Tex
  brightnessTexture : Tex
  inputImageSize : Vec2
  gridCols : ℤ
  gridRows : ℤ
  pixelDensity : ℚ

/-- The shader's `logicalFragCoord = floor(gl_FragCoord.xy / u_pixelRatio)`
(the `pixelDensity` field models the `u_pixelRatio` uniform, which
`render()` sets to `pixelDensity()`). -/
def logicalFragCoord (U : BrightnessSplitUniforms) (fragCoord : Vec2) : Vec2 :=
  ⟨qfloor (fragCoord.x / U.pixelDensity), qfloor (fragCoord.y / U.pixelDensity)⟩

/-- The shader's `imageTexCoord = logicalFragCoord / u_inputImageSize`. -/
def imageTexCoord (U : BrightnessSplitUniforms) (fragCoord : Vec2) : Vec2 :=
  ⟨(logicalFragCoord U fragCoord).x / U.inputImageSize.x,
   (logicalFragCoord U fragCoord).y / U.inputImageSize.y⟩

/-- The cell-average brightness the shader looks up for a fragment:
grid cell of the logical coordinate, clamped to valid cell indices, then
sampled at the cell center of the brightness texture (`.r` component). -/
def averageBrightness (U : BrightnessSplitUniforms) (fragCoord : Vec2) : ℚ :=
  let logical := logicalFragCoord U fragCoord
  let cellWidth := U.inputImageSize.x / (U.gridCols : ℚ)
  let cellHeight := U.inputImageSize.y / (U.gridRows : ℚ)
  let gridX := qclamp (qfloor (logical.x / cellWidth)) 0 ((U.gridCols : ℚ) - 1)
  let gridY := qclamp (qfloor (logical.y / cellHeight)) 0 ((U.gridRows : ℚ) - 1)
  let brightnessTexCoord : Vec2 :=
    ⟨(gridX + (0.5 : ℚ)) / (U.gridCols : ℚ), (gridY + (0.5 : ℚ)) / (U.gridRows : ℚ)⟩
  (U.brightnessTexture brightnessTexCoord).x

/-- The `main()` function of `brightnessSplit.frag`. -/
def brightnessSplitMain (U : BrightnessSplitUniforms) (fragCoord : Vec2) : Vec4 :=
  let originalColor := U.inputImage (imageTexCoord U fragCoord)
  if originalColor.w < EPSILON then ⟨0, 0, 0, 0⟩
  else
    let fragmentBrightness := luminance originalColor
    let brightnessDifference := fragmentBrightness - averageBrightness U fragCoord
    let finalColorValue : ℚ := if brightnessDifference < -EPSILON then 0 else 1
    ⟨finalColorValue, finalColorValue, finalColorValue, 1⟩

/-!
## Brightness sample shader (`generateBrightnessSampleShader(cellHeight, cellWidth)`)

The generator bakes `u = cellHeight` and `f = cellWidth` into the source as
loop bounds.  One fragment per grid cell; the double loop accumulates the
luminance of `u * f` sub-samples (coordinates clamped to `[0,1]`) and
divides by `u * f`.
-/

/-- Uniforms of the brightness sample shader. -/
structure BrightnessSampleUniforms where
  inputImage : Tex
  inputImageSize : Vec2
  gridCols : ℤ
  gridRows : ℤ

/-- The clamped sub-sample coordinate of sample `(s, g)` for the cell at
fragment `v0` (`s` counts `0..cellHeight`, `g` counts `0..cellWidth`, as in
the generated loop where the `x` offset uses the `cellHeight`-bounded
counter and the `y` offset the `cellWidth`-bounded one). -/
def bsSampleCoord (cellHeight cellWidth : ℕ) (U : BrightnessSampleUniforms)
    (v0 : Vec2) (s g : ℕ) : Vec2 :=
  let e : Vec2 := ⟨U.inputImageSize.x / (U.gridCols : ℚ), U.inputImageSize.y / (U.gridRows : ℚ)⟩
  ⟨qclamp ((v0.x * e.x + ((s : ℚ) + (0.5 : ℚ)) * (e.x / (cellHeight : ℚ))) / U.inputImageSize.x) 0 1,
   qclamp ((v0.y * e.y + ((g : ℚ) + (0.5 : ℚ)) * (e.y / (cellWidth : ℚ))) / U.inputImageSize.y) 0 1⟩

/-- The `main()` function of the generated brightness sample shader: the sequential
double-loop accumulation, then division by `float(u*f)`. -/
def brightnessSampleMain (cellHeight cellWidth : ℕ) (U : BrightnessSampleUniforms)
    (fragCoord : Vec2) : Vec4 :=
  let v0 : Vec2 := ⟨qfloor fragCoord.x, qfloor fragCoord.y⟩
  let total : ℚ :=
    (List.range cellHeight).foldl (fun acc s =>
      (List.range cellWidth).foldl (fun acc g =>
        acc + luminance (U.inputImage (bsSampleCoord cellHeight cellWidth U v0 s g))) acc) 0
  let i := total / ((cellHeight : ℚ) * (cellWidth : ℚ))
  ⟨i, i, i, 1⟩

/-!
## Color sample shader (`generateColorSampleShader(e, u, f)`)

The generator bakes `e` (bucket capacity, always 16 at the call sites),
`u = cellHeight` and `f = cellWidth` into the source.  One fragment per
grid cell; the double loop visits `u * f` sub-samples in a fixed traversal
order, keeps the ones whose binary-mask value matches the requested color
rank, tallies distinct colors (compared on `.xyz`) into `e` buckets, then
returns the bucket color with the highest count (strict `>` while
scanning, so the first bucket reaching the maximum wins), with a
center-pixel fallback when rank 2 matched nothing.
-/

/-- Uniforms of the color sample shader. -/
structure ColorSampleUniforms where
  inputImage : Tex
  inputImageBW : Tex
  inputImageSize : Vec2
  gridCols : ℤ
  gridRows : ℤ
  colorRank : ℤ

/-- The clamped sub-sample coordinate of sample `(v2, k2)` for the cell at
fragment `i0` (same transposed-loop layout as the brightness sampler:
the `x` offset uses the `cellHeight`-bounded counter `v2`). -/
def csSampleCoord (cellHeight cellWidth : ℕ) (U : ColorSampleUniforms)
    (i0 : Vec2) (v2 k2 : ℕ) : Vec2 :=
  let t : Vec2 := ⟨U.inputImageSize.x / (U.gridCols : ℚ), U.inputImageSize.y / (U.gridRows : ℚ)⟩
  ⟨qclamp ((i0.x * t.x + ((v2 : ℚ) + (0.5 : ℚ)) * (t.x / (cellHeight : ℚ))) / U.inputImageSize.x) 0 1,
   qclamp ((i0.y * t.y + ((k2 : ℚ) + (0.5 : ℚ)) * (t.y / (cellWidth : ℚ))) / U.inputImageSize.y) 0 1⟩

/-- The sub-sample coordinates of a cell in the shader's traversal order
(outer loop bound `cellHeight`, inner loop bound `cellWidth`). -/
def csSampleCoords (cellHeight cellWidth : ℕ) (U : ColorSampleUniforms)
    (i0 : Vec2) : List Vec2 :=
  (List.range cellHeight).flatMap (fun v2 =>
    (List.range cellWidth).map (fun k2 => csSampleCoord cellHeight cellWidth U i0 v2 k2))

/-- The rank test of the loop body:
`float r = step(.5, d.x); if (u_colorRank==1 && r>.5) ... else if (u_colorRank==2 && r<=.5) ...`. -/
def matchesRank (colorRank : ℤ) (d : Vec4) : Bool :=
  let r : ℚ := if d.x < (0.5 : ℚ) then 0 else 1
  if colorRank = 1 ∧ r > (0.5 : ℚ) then true
  else if colorRank = 2 ∧ r ≤ (0.5 : ℚ) then true
  else false

/-- First tally pass of the loop body: scan the buckets for one whose
stored color equals `m` on `.xyz`; increment its count.  Returns `none`
when no bucket matches. -/
def bumpFirstMatch (m : Vec4) : List (Vec4 × ℚ) → Option (List (Vec4 × ℚ))
  | [] => none
  | (c, b) :: rest =>
      if m.x = c.x ∧ m.y = c.y ∧ m.z = c.z then some ((c, b + 1) :: rest)
      else (bumpFirstMatch m rest).map (fun l => (c, b) :: l)

/-- Second tally pass: store `m` with count 1 in the first bucket whose
count is 0 (a full bucket array drops the color silently). -/
def fillFirstFree (m : Vec4) : List (Vec4 × ℚ) → List (Vec4 × ℚ)
  | [] => []
  | (c, b) :: rest =>
      if b = 0 then (m, 1) :: rest else (c, b) :: fillFirstFree m rest

/-- One matched sample's effect on the bucket array. -/
def tallyStep (buckets : List (Vec4 × ℚ)) (m : Vec4) : List (Vec4 × ℚ) :=
  match bumpFirstMatch m buckets with
  | some bs => bs
  | none => fillFirstFree m buckets

/-- The zero-initialised bucket array (`c[i]=vec4(0)`, `b[i]=0.`). -/
def initBuckets (e : ℕ) : List (Vec4 × ℚ) := List.replicate e (⟨0, 0, 0, 0⟩, 0)

/-- The full tally double loop: visit the sub-samples in traversal order,
skip the ones failing the rank test, tally the rest. -/
def tallyLoop (e cellHeight cellWidth : ℕ) (U : ColorSampleUniforms) (i0 : Vec2) :
    List (Vec4 × ℚ) :=
  (csSampleCoords cellHeight cellWidth U i0).foldl (fun buckets s =>
    if matchesRank U.colorRank (U.inputImageBW s) then tallyStep buckets (U.inputImage s)
    else buckets) (initBuckets e)

/-- The selection loop:
`for(int i=0;i<e;i++){ if(b[i]>z) z=b[i], m=c[i]; }` starting from
`z=0., m=vec4(0)`. -/
def selectMax (buckets : List (Vec4 × ℚ)) : ℚ × Vec4 :=
  buckets.foldl (fun acc b => if b.2 > acc.1 then (b.2, b.1) else acc) (0, ⟨0, 0, 0, 0⟩)

/-- The source pixel sampled at the cell center:
`vec2 k=(i+t*.5)/u_inputImageSize; vec4 v=texture2D(u_inputImage,k);`. -/
def centerSample (U : ColorSampleUniforms) (i0 : Vec2) : Vec4 :=
  let t : Vec2 := ⟨U.inputImageSize.x / (U.gridCols : ℚ), U.inputImageSize.y / (U.gridRows : ℚ)⟩
  U.inputImage ⟨(i0.x * t.x + t.x * (0.5 : ℚ)) / U.inputImageSize.x,
                (i0.y * t.y + t.y * (0.5 : ℚ)) / U.inputImageSize.y⟩

/-- The `main()` function of the generated color sample shader. -/
def colorSampleMain (e cellHeight cellWidth : ℕ) (U : ColorSampleUniforms)
    (fragCoord : Vec2) : Vec4 :=
  let i0 : Vec2 := ⟨qfloor fragCoord.x, qfloor fragCoord.y⟩
  let v := centerSample U i0
  let zm := selectMax (tallyLoop e cellHeight cellWidth U i0)
  let m := if U.colorRank = 2 ∧ zm.1 = 0 then v else zm.2
  ⟨m.x, m.y, m.z, 1⟩

/-- The matched sample colors of a cell, in traversal order (the colors the
tally loop does not skip). -/
def matchedColors (cellHeight cellWidth : ℕ) (U : ColorSampleUniforms) (i0 : Vec2) :
    List Vec4 :=
  (csSampleCoords cellHeight cellWidth U i0).filterMap (fun s =>
    if matchesRank U.colorRank (U.inputImageBW s) then some (U.inputImage s) else none)

/-!
### Spec-side description of the color sampler's tie-break (for C5)

Modelled from the spec's words: "Tie-break: first color reaching the
highest count wins (encounter order)"; colors are compared on their RGB
components.
-/

/-- The RGB triple of a sampled color (the shader compares `.xyz`). -/
def rgb (v : Vec4) : ℚ × ℚ × ℚ := (v.x, v.y, v.z)

/-- The distinct RGB colors of a list, in first-encounter order. -/
def firstOccurrences (l : List Vec4) : List (ℚ × ℚ × ℚ) :=
  l.foldl (fun acc m => if rgb m ∈ acc then acc else acc ++ [rgb m]) []

/-- How often an RGB color occurs in a sample list. -/
def countColor (l : List Vec4) (c : ℚ × ℚ × ℚ) : ℕ :=
  (l.filter (fun m => rgb m = c)).length

/-- The highest tally any color reaches. -/
def maxTally (l : List Vec4) : ℕ :=
  ((firstOccurrences l).map (countColor l)).foldl max 0

/-- The spec-side selected color: the first color, in encounter order,
reaching the highest tally. -/
def specSelectedColor (l : List Vec4) : ℚ × ℚ × ℚ :=
  ((firstOccurrences l).find? (fun c => maxTally l ≤ countColor l c)).getD (0, 0, 0)

/-!
## Character selection shader (`generateCharacterSelectionShader(fontSize)`)

The generator bakes `fontSize` into the source: the sub-sample grid is
`fontSize × fontSize` (`const float u=float(t), f=u*u;`).  One fragment per
grid cell.  The shader first scans the cell's sub-samples of the binary
mask for any sample with positive alpha; a fully transparent cell emits
`vec4(0)` and returns.  Otherwise it scans the character palette (up to
1024 entries, stopping at `u_charPaletteSize.x`), decodes each entry's
glyph index from the palette texture, accumulates the sum of squared
differences between mask and glyph sub-samples, divides by `f`, and keeps
the entry with the lowest error under a strict `<` comparison.  The winning
glyph index is emitted base-256 in the red/green channels with alpha 1.
-/

/-- Uniforms of the character selection shader.  `u_charPaletteSize` is set
by `render()` to `[colors.length, 1]`, so its `x` component is the integer
palette length (modelled as `ℕ`). -/
structure CharSelUniforms where
  characterTexture : Tex
  charsetCols : ℚ
  charsetRows : ℚ
  sketchTexture : Tex
  gridPixelDimensions : Vec2
  gridCellDimensions : Vec2
  charPaletteTexture : Tex
  charPaletteLength : ℕ
  charPaletteSizeY : ℚ

/-- The shader's `e = v*r/u_gridPixelDimensions` with `v = floor(floor(gl_FragCoord.xy).xy)`
and `r = u_gridPixelDimensions/u_gridCellDimensions`: the cell's origin in
texture space. -/
def csCellOrigin (U : CharSelUniforms) (fragCoord : Vec2) : Vec2 :=
  let v : Vec2 := ⟨qfloor (qfloor fragCoord.x), qfloor (qfloor fragCoord.y)⟩
  let r : Vec2 := ⟨U.gridPixelDimensions.x / U.gridCellDimensions.x,
                   U.gridPixelDimensions.y / U.gridCellDimensions.y⟩
  ⟨v.x * r.x / U.gridPixelDimensions.x, v.y * r.y / U.gridPixelDimensions.y⟩

/-- The shader's `v = (v+vec2(1))*r/u_gridPixelDimensions - e`: the cell's size in
texture space. -/
def csCellSize (U : CharSelUniforms) (fragCoord : Vec2) : Vec2 :=
  let v : Vec2 := ⟨qfloor (qfloor fragCoord.x), qfloor (qfloor fragCoord.y)⟩
  let r : Vec2 := ⟨U.gridPixelDimensions.x / U.gridCellDimensions.x,
                   U.gridPixelDimensions.y / U.gridCellDimensions.y⟩
  let e := csCellOrigin U fragCoord
  ⟨(v.x + 1) * r.x / U.gridPixelDimensions.x - e.x,
   (v.y + 1) * r.y / U.gridPixelDimensions.y - e.y⟩

/-- The mask sub-sample coordinate `e + r*v` for inner counter `f2` (x) and
outer counter `u2` (y), with `r = vec2(f2+.5, u2+.5) * (1/fontSize)`. -/
def maskSampleCoord (fontSize : ℕ) (U : CharSelUniforms) (fragCoord : Vec2)
    (u2 f2 : ℕ) : Vec2 :=
  let k : ℚ := 1 / (fontSize : ℚ)
  let e := csCellOrigin U fragCoord
  let v := csCellSize U fragCoord
  ⟨e.x + ((f2 : ℚ) + (0.5 : ℚ)) * k * v.x, e.y + ((u2 : ℚ) + (0.5 : ℚ)) * k * v.y⟩

/-- The transparency scan: `s` stays `true` iff no sub-sample of the binary
mask has `w > 0` (the `break`s only exit early; the result is the same). -/
def cellTransparent (fontSize : ℕ) (U : CharSelUniforms) (fragCoord : Vec2) : Bool :=
  (List.range fontSize).all (fun u2 =>
    (List.range fontSize).all (fun f2 =>
      decide ((U.sketchTexture (maskSampleCoord fontSize U fragCoord u2 f2)).w ≤ 0)))

/-- The palette texture coordinate of entry `uIdx`:
`vec2((float(u)+.5)/t, .5/u_charPaletteSize.y)`. -/
def paletteEntryCoord (U : CharSelUniforms) (uIdx : ℕ) : Vec2 :=
  ⟨((uIdx : ℚ) + (0.5 : ℚ)) / (U.charPaletteLength : ℚ), (0.5 : ℚ) / U.charPaletteSizeY⟩

/-- The glyph index decoded from palette entry `uIdx`:
`m = r.x*255. + r.y*255.*256. + r.z*255.*65536.`. -/
def glyphIndex (U : CharSelUniforms) (uIdx : ℕ) : ℚ :=
  let r := U.charPaletteTexture (paletteEntryCoord U uIdx)
  r.x * 255 + r.y * 255 * 256 + r.z * 255 * 65536

/-- The atlas origin of glyph `m`:
`y = floor(m/u_charsetCols); s = vec2((m-u_charsetCols*y)/u_charsetCols, y/u_charsetRows)`. -/
def glyphAtlasOrigin (U : CharSelUniforms) (m : ℚ) : Vec2 :=
  let y := qfloor (m / U.charsetCols)
  ⟨(m - U.charsetCols * y) / U.charsetCols, y / U.charsetRows⟩

/-- The per-entry error: the accumulated sum of squared differences between
the mask sub-samples and glyph sub-samples, divided by `f = u*u`. -/
def ssdEntry (fontSize : ℕ) (U : CharSelUniforms) (fragCoord : Vec2) (uIdx : ℕ) : ℚ :=
  let k : ℚ := 1 / (fontSize : ℚ)
  let s := glyphAtlasOrigin U (glyphIndex U uIdx)
  let C : Vec2 := ⟨1 / U.charsetCols, 1 / U.charsetRows⟩
  let y : ℚ :=
    (List.range fontSize).foldl (fun acc u2 =>
      (List.range fontSize).foldl (fun acc f2 =>
        let m2 := (U.sketchTexture (maskSampleCoord fontSize U fragCoord u2 f2)).x -
          (U.characterTexture ⟨s.x + ((f2 : ℚ) + (0.5 : ℚ)) * k * C.x,
                               s.y + ((u2 : ℚ) + (0.5 : ℚ)) * k * C.y⟩).x
        acc + m2 * m2) acc) 0
  y / ((fontSize : ℚ) * (fontSize : ℚ))

/-- How many palette entries the scan visits: the loop runs `u` from 0
below 1024 and breaks at `float(u) >= u_charPaletteSize.x`. -/
def paletteScanCount (U : CharSelUniforms) : ℕ := min U.charPaletteLength 1024

/-- The palette scan: fold over the visited entries keeping
`(bestError, bestGlyphIndex)` under a strict `<` comparison, starting from
`(1e20, 0.)`. -/
def paletteScan (fontSize : ℕ) (U : CharSelUniforms) (fragCoord : Vec2) : ℚ × ℚ :=
  (List.range (paletteScanCount U)).foldl (fun acc uIdx =>
    if ssdEntry fontSize U fragCoord uIdx < acc.1 then
      (ssdEntry fontSize U fragCoord uIdx, glyphIndex U uIdx)
    else acc) ((1e20 : ℚ), 0)

/-- The `main()` function of the generated character selection shader. -/
def characterSelectionMain (fontSize : ℕ) (U : CharSelUniforms) (fragCoord : Vec2) : Vec4 :=
  if cellTransparent fontSize U fragCoord then ⟨0, 0, 0, 0⟩
  else
    let g := (paletteScan fontSize U fragCoord).2
    let i := qmod g 256
    let g2 := qfloor (g / 256)
    ⟨i / 255, g2 / 255, 0, 1⟩

/-!
## Options merging (`ACCURATE_DEFAULT_OPTIONS`, constructor, plugin `create`)

The constructor computes `{ ...ACCURATE_DEFAULT_OPTIONS, ...options }`: a
key-by-key override of the defaults by the provided record.  A provided
options record is modelled as a record of `Option` fields (`some` = key
present).  `AccurateRendererPlugin.create` forwards
`options || ACCURATE_DEFAULT_OPTIONS` to the constructor.
-/

/-- The effective (fully populated) renderer options. -/
structure RendererOptions where
  enabled : Bool
  characters : String
  characterColor : String
  characterColorMode : String
  backgroundColor : String
  backgroundColorMode : String
  invertMode : Bool
  rotationAngle : ℚ
  flipHorizontally : Bool
  flipVertically : Bool
deriving DecidableEq, Repr

/-- The record `ACCURATE_DEFAULT_OPTIONS` of `AccurateAsciiRenderer.ts`. -/
def ACCURATE_DEFAULT_OPTIONS : RendererOptions where
  enabled := true
  characters := " .:-=+*%@#"
  characterColor := "#FFFFFF"
  characterColorMode := "sampled"
  backgroundColor := "#000000"
  backgroundColorMode := "sampled"
  invertMode := false
  rotationAngle := 0
  flipHorizontally := false
  flipVertically := false

/-- A (possibly partial) options record: each recognized key is present
(`some`) or absent (`none`). -/
structure ProvidedOptions where
  enabled : Option Bool := none
  characters : Option String := none
  characterColor : Option String := none
  characterColorMode : Option String := none
  backgroundColor : Option String := none
  backgroundColorMode : Option String := none
  invertMode : Option Bool := none
  rotationAngle : Option ℚ := none
  flipHorizontally : Option Bool := none
  flipVertically : Option Bool := none
deriving DecidableEq, Repr

/-- The spread `{ ...base, ...o }`: a key present in `o` overrides the
corresponding key of `base`. -/
def spreadMerge (base : RendererOptions) (o : ProvidedOptions) : RendererOptions where
  enabled := o.enabled.getD base.enabled
  characters := o.characters.getD base.characters
  characterColor := o.characterColor.getD base.characterColor
  characterColorMode := o.characterColorMode.getD base.characterColorMode
  backgroundColor := o.backgroundColor.getD base.backgroundColor
  backgroundColorMode := o.backgroundColorMode.getD base.backgroundColorMode
  invertMode := o.invertMode.getD base.invertMode
  rotationAngle := o.rotationAngle.getD base.rotationAngle
  flipHorizontally := o.flipHorizontally.getD base.flipHorizontally
  flipVertically := o.flipVertically.getD base.flipVertically

/-- The constructor's `mergedOptions = { ...ACCURATE_DEFAULT_OPTIONS, ...options }`
(the constructor's default parameter value is `ACCURATE_DEFAULT_OPTIONS`
itself, i.e. the fully populated record). -/
def mergedOptions (o : ProvidedOptions) : RendererOptions :=
  spreadMerge ACCURATE_DEFAULT_OPTIONS o

/-- A fully populated record viewed as a provided record (all keys present). -/
def toProvided (r : RendererOptions) : ProvidedOptions where
  enabled := some r.enabled
  characters := some r.characters
  characterColor := some r.characterColor
  characterColorMode := some r.characterColorMode
  backgroundColor := some r.backgroundColor
  backgroundColorMode := some r.backgroundColorMode
  invertMode := some r.invertMode
  rotationAngle := some r.rotationAngle
  flipHorizontally := some r.flipHorizontally
  flipVertically := some r.flipVertically

/-- Plugin entry `AccurateRendererPlugin.create`: passes `options || ACCURATE_DEFAULT_OPTIONS`
to the constructor, which then merges over the defaults. -/
def pluginCreateOptions (options : Option ProvidedOptions) : RendererOptions :=
  mergedOptions (options.getD (toProvided ACCURATE_DEFAULT_OPTIONS))

/-!
## Base-class resolution (`getBaseClass` / `getCachedBaseClass`)

`getBaseClass` tries the ESM import path
`renderers.renderer2d.feature.P5AsciifyAbstractFeatureRenderer2D`, then the
window global `window.P5AsciifyAbstractFeatureRenderer2D` (which must be a
function), and otherwise throws an `Error` whose message names the missing
symbol and lists window keys containing `"asciify"` or `"p5"`
(case-insensitive).  The surrounding JavaScript environment is modelled
with `Option` fields for each step of the lookup chains; a base class
value is an opaque identifier.
-/

/-- An opaque class value (identified by a numeric tag). -/
abbrev BaseClass : Type := ℕ

/-- The `renderers.renderer2d.feature` namespace. -/
structure FeatureNs where
  abstractFeatureRenderer2D : Option BaseClass

/-- The `renderers.renderer2d` namespace. -/
structure Renderer2dNs where
  feature : Option FeatureNs

/-- The `renderers` namespace. -/
structure RenderersNs where
  renderer2d : Option Renderer2dNs

/-- A value stored in the window global slot, with its `typeof`-function flag. -/
structure GlobalVal where
  value : BaseClass
  isFunction : Bool

/-- The `window` object: the global slot and the enumerable keys. -/
structure WindowObj where
  abstractFeatureRenderer2D : Option GlobalVal
  keys : List String

/-- The environment `getBaseClass` observes. -/
structure JsEnv where
  renderers : Option RenderersNs
  window : Option WindowObj

/-- Occurrence of `needle` inside `hay` (executable, used for the
case-insensitive `includes` filter). -/
def occursB (needle : List Char) : List Char → Bool
  | [] => List.isPrefixOf needle []
  | c :: rest => List.isPrefixOf needle (c :: rest) || occursB needle rest

/-- A substring test with the semantics of the JS `includes` method. -/
def strOccursB (needle hay : String) : Bool := occursB needle.data hay.data

/-- Substring occurrence as a proposition. -/
def strOccurs (needle hay : String) : Prop :=
  ∃ p q, hay.data = p ++ needle.data ++ q

/-- The window keys the error path reports:
`Object.keys(window).filter(key => key.toLowerCase().includes('asciify') || key.toLowerCase().includes('p5'))`,
and `[]` when `window` is undefined. -/
def availableGlobals (env : JsEnv) : List String :=
  match env.window with
  | none => []
  | some w => w.keys.filter (fun key =>
      strOccursB "asciify" key.toLower || strOccursB "p5" key.toLower)

/-- The thrown error's message. -/
def baseClassErrorMessage (globals : List String) : String :=
  "`P5AsciifyAbstractFeatureRenderer2D` not found. " ++
  "Please ensure p5.asciify is loaded before this plugin. " ++
  (if globals.length > 0 then
    "Found related globals: " ++ String.intercalate ", " globals
  else "No related globals found.")

/-- Strategy 2 of `getBaseClass` followed by the throw: try the window
global (which must be a function), else throw the descriptive error. -/
def getBaseClassFallback (env : JsEnv) : Except String BaseClass :=
  match env.window with
  | some w =>
    match w.abstractFeatureRenderer2D with
    | some g => if g.isFunction then Except.ok g.value
                else Except.error (baseClassErrorMessage (availableGlobals env))
    | none => Except.error (baseClassErrorMessage (availableGlobals env))
  | none => Except.error (baseClassErrorMessage (availableGlobals env))

/-- The full `getBaseClass`: strategy 1 (ESM chain), then strategy 2 / throw. -/
def getBaseClass (env : JsEnv) : Except String BaseClass :=
  match env.renderers with
  | some rs =>
    match rs.renderer2d with
    | some r2d =>
      match r2d.feature with
      | some ft =>
        match ft.abstractFeatureRenderer2D with
        | some cls => Except.ok cls
        | none => getBaseClassFallback env
      | none => getBaseClassFallback env
    | none => getBaseClassFallback env
  | none => getBaseClassFallback env

/-- The ESM lookup chain succeeds. -/
def esmResolves (env : JsEnv) : Prop :=
  ∃ rs r2d ft cls, env.renderers = some rs ∧ rs.renderer2d = some r2d ∧
    r2d.feature = some ft ∧ ft.abstractFeatureRenderer2D = some cls

/-- The window-global lookup succeeds. -/
def windowResolves (env : JsEnv) : Prop :=
  ∃ w g, env.window = some w ∧ w.abstractFeatureRenderer2D = some g ∧ g.isFunction = true

/-- The first component of the bucket-selection fold: the running maximum
count. -/
def listMaxQ (z : ℚ) (bs : List (Vec4 × ℚ)) : ℚ :=
  bs.foldl (fun a b => max a b.2) z

/-- The second component of the bucket-selection fold: the color kept by
the strict `>` comparison (the first bucket strictly exceeding what came
before). -/
def pickFirst (z : ℚ) (m : Vec4) : List (Vec4 × ℚ) → Vec4
  | [] => m
  | b :: bs => if b.2 > z then pickFirst b.2 b.1 bs else pickFirst z m bs

/-- The shape of the palette-scan fold: state `(bestError, bestValue)`,
strict `<` comparison, scanning indices `0, 1, …, n-1` in order. -/
def scanFold (f g : ℕ → ℚ) (B g0 : ℚ) (n : ℕ) : ℚ × ℚ :=
  (List.range n).foldl (fun acc u => if f u < acc.1 then (f u, g u) else acc) (B, g0)

/-!
## Theorems
-/

/-- C7: `resizeFramebuffers()` leaves every compiled shader program
unchanged (the four shader fields are not reassigned) and reallocates the
brightness-sample buffer to grid cols × rows and the brightness-split
buffer to the capture buffer's width × height, so buffer dimensions again
match the current Grid and Capture Buffer. -/
theorem C7_resizeFramebuffers_spec (grid : GridInfo) (capture : CaptureInfo)
    (st : RendererState) :
    (resizeFramebuffers grid capture st).characterSelectionShader = st.characterSelectionShader ∧
    (resizeFramebuffers grid capture st).brightnessSampleShader = st.brightnessSampleShader ∧
    (resizeFramebuffers grid capture st).colorSampleShader = st.colorSampleShader ∧
    (resizeFramebuffers grid capture st).brightnessSplitShader = st.brightnessSplitShader ∧
    (resizeFramebuffers grid capture st).brightnessSampleFramebuffer = ⟨grid.cols, grid.rows⟩ ∧
    (resizeFramebuffers grid capture st).brightnessSplitFramebuffer =
      ⟨capture.width, capture.height⟩ := by
  refine ⟨rfl, rfl, rfl, rfl, rfl, rfl⟩

/-- C8 counterexample: after `resetShaders()` on a freshly constructed
renderer, the brightness-split shader is not compiled from any generator
function — so "all shader programs are (re)compiled from generator
functions" fails. -/
theorem C8_brightnessSplit_not_generator_derived :
    ¬ generatorDerived
      ((resetShaders ⟨2, 3, 20, 30, 10, 10⟩ ⟨8⟩
        (constructState ⟨1, 1, 10, 10, 5, 5⟩ ⟨10, 10⟩ ⟨4⟩)).brightnessSplitShader) := by
  intro h
  rcases h with ⟨n, h⟩ | ⟨a, b, h⟩ | ⟨a, b, c, h⟩ <;> simp [resetShaders, constructState] at h

/-- C8 (amended): on construction all four shader programs are compiled —
the character-selection, brightness-sample and color-sample shaders from
generator functions parameterized by the current font size and grid cell
dimensions, the brightness-split shader from its fixed source — and
`resetShaders()` recompiles exactly the three generator-derived shaders,
so after a reset every generator-derived shader's source reflects the
current font size and cell width/height while the brightness-split shader
is left unchanged. -/
theorem C8_shader_compilation_spec (grid : GridInfo) (capture : CaptureInfo)
    (font : FontInfo) (grid2 : GridInfo) (font2 : FontInfo) (st : RendererState) :
    (constructState grid capture font).characterSelectionShader =
      FragSource.generateCharacterSelectionShader font.fontSize ∧
    (constructState grid capture font).brightnessSampleShader =
      FragSource.generateBrightnessSampleShader grid.cellHeight grid.cellWidth ∧
    (constructState grid capture font).colorSampleShader =
      FragSource.generateColorSampleShader 16 grid.cellHeight grid.cellWidth ∧
    (constructState grid capture font).brightnessSplitShader = FragSource.brightnessSplit ∧
    (resetShaders grid2 font2 st).characterSelectionShader =
      FragSource.generateCharacterSelectionShader font2.fontSize ∧
    (resetShaders grid2 font2 st).brightnessSampleShader =
      FragSource.generateBrightnessSampleShader grid2.cellHeight grid2.cellWidth ∧
    (resetShaders grid2 font2 st).colorSampleShader =
      FragSource.generateColorSampleShader 16 grid2.cellHeight grid2.cellWidth ∧
    (resetShaders grid2 font2 st).brightnessSplitShader = st.brightnessSplitShader := by
  refine ⟨rfl, rfl, rfl, rfl, rfl, rfl, rfl, rfl⟩

/-- C10: the effective options are the defaults overridden key-by-key by
the provided record — each key absent takes the default, each key present
takes the provided value — and constructing with no options record, or via
the plugin's `create` with options `undefined`, yields exactly the default
options. -/
theorem C10_options_merge_spec (o : ProvidedOptions) :
    ((o.enabled = none → (mergedOptions o).enabled = ACCURATE_DEFAULT_OPTIONS.enabled) ∧
      ∀ v, o.enabled = some v → (mergedOptions o).enabled = v) ∧
    ((o.characters = none → (mergedOptions o).characters = ACCURATE_DEFAULT_OPTIONS.characters) ∧
      ∀ v, o.characters = some v → (mergedOptions o).characters = v) ∧
    ((o.characterColor = none →
        (mergedOptions o).characterColor = ACCURATE_DEFAULT_OPTIONS.characterColor) ∧
      ∀ v, o.characterColor = some v → (mergedOptions o).characterColor = v) ∧
    ((o.characterColorMode = none →
        (mergedOptions o).characterColorMode = ACCURATE_DEFAULT_OPTIONS.characterColorMode) ∧
      ∀ v, o.characterColorMode = some v → (mergedOptions o).characterColorMode = v) ∧
    ((o.backgroundColor = none →
        (mergedOptions o).backgroundColor = ACCURATE_DEFAULT_OPTIONS.backgroundColor) ∧
      ∀ v, o.backgroundColor = some v → (mergedOptions o).backgroundColor = v) ∧
    ((o.backgroundColorMode = none →
        (mergedOptions o).backgroundColorMode = ACCURATE_DEFAULT_OPTIONS.backgroundColorMode) ∧
      ∀ v, o.backgroundColorMode = some v → (mergedOptions o).backgroundColorMode = v) ∧
    ((o.invertMode = none → (mergedOptions o).invertMode = ACCURATE_DEFAULT_OPTIONS.invertMode) ∧
      ∀ v, o.invertMode = some v → (mergedOptions o).invertMode = v) ∧
    ((o.rotationAngle = none →
        (mergedOptions o).rotationAngle = ACCURATE_DEFAULT_OPTIONS.rotationAngle) ∧
      ∀ v, o.rotationAngle = some v → (mergedOptions o).rotationAngle = v) ∧
    ((o.flipHorizontally = none →
        (mergedOptions o).flipHorizontally = ACCURATE_DEFAULT_OPTIONS.flipHorizontally) ∧
      ∀ v, o.flipHorizontally = some v → (mergedOptions o).flipHorizontally = v) ∧
    ((o.flipVertically = none →
        (mergedOptions o).flipVertically = ACCURATE_DEFAULT_OPTIONS.flipVertically) ∧
      ∀ v, o.flipVertically = some v → (mergedOptions o).flipVertically = v) ∧
    mergedOptions {} = ACCURATE_DEFAULT_OPTIONS ∧
    pluginCreateOptions none = ACCURATE_DEFAULT_OPTIONS := by
  refine ⟨⟨?_, ?_⟩, ⟨?_, ?_⟩, ⟨?_, ?_⟩, ⟨?_, ?_⟩, ⟨?_, ?_⟩, ⟨?_, ?_⟩, ⟨?_, ?_⟩,
    ⟨?_, ?_⟩, ⟨?_, ?_⟩, ⟨?_, ?_⟩, rfl, rfl⟩ <;>
    first
      | (intro h; simp [mergedOptions, spreadMerge, h])
      | (intro v h; simp [mergedOptions, spreadMerge, h])

/-- C10 witness: a record providing only `enabled := false` overrides that
key and keeps the default character set; the empty record and the plugin
`create` path give the defaults. -/
theorem C10_options_merge_witness :
    (mergedOptions { enabled := some false }).enabled = false ∧
    (mergedOptions { enabled := some false }).characters = ACCURATE_DEFAULT_OPTIONS.characters := by
  refine ⟨(C10_options_merge_spec { enabled := some false }).1.2 false rfl, ?_⟩
  exact (C10_options_merge_spec { enabled := some false }).2.1.1 rfl

lemma string_data_append (a b : String) : (a ++ b).data = a.data ++ b.data := rfl

lemma strOccurs_append_right {n : String} (a b : String) (h : strOccurs n a) :
    strOccurs n (a ++ b) := by
  obtain ⟨p, q, hp⟩ := h
  exact ⟨p, q ++ b.data, by rw [string_data_append, hp]; simp⟩

lemma strOccurs_append_left {n : String} (a b : String) (h : strOccurs n b) :
    strOccurs n (a ++ b) := by
  obtain ⟨p, q, hp⟩ := h
  exact ⟨a.data ++ p, q, by rw [string_data_append, hp]; simp⟩

lemma strOccurs_refl (s : String) : strOccurs s s := ⟨[], [], by simp⟩

lemma getBaseClass_eq_fallback (env : JsEnv) (h : ¬ esmResolves env) :
    getBaseClass env = getBaseClassFallback env := by
  cases hrs : env.renderers with
  | none => simp [getBaseClass, hrs]
  | some rs =>
    cases hr2 : rs.renderer2d with
    | none => simp [getBaseClass, hrs, hr2]
    | some r2d =>
      cases hft : r2d.feature with
      | none => simp [getBaseClass, hrs, hr2, hft]
      | some ft =>
        cases hcls : ft.abstractFeatureRenderer2D with
        | none => simp [getBaseClass, hrs, hr2, hft, hcls]
        | some cls => exact absurd ⟨rs, r2d, ft, cls, hrs, hr2, hft, hcls⟩ h

lemma getBaseClassFallback_error (env : JsEnv) (h : ¬ windowResolves env) :
    getBaseClassFallback env =
      Except.error (baseClassErrorMessage (availableGlobals env)) := by
  cases hw : env.window with
  | none => simp [getBaseClassFallback, hw]
  | some w =>
    cases hg : w.abstractFeatureRenderer2D with
    | none => simp [getBaseClassFallback, hw, hg]
    | some g =>
      cases hf : g.isFunction with
      | true => exact absurd ⟨w, g, hw, hg, hf⟩ h
      | false => simp [getBaseClassFallback, hw, hg, hf]

lemma errorMessage_names_symbol (globals : List String) :
    strOccurs "P5AsciifyAbstractFeatureRenderer2D" (baseClassErrorMessage globals) := by
  unfold baseClassErrorMessage
  apply strOccurs_append_right
  apply strOccurs_append_right
  exact ⟨[Char.ofNat 96], "` not found. ".data, by decide⟩

lemma errorMessage_lists_globals (globals : List String) (h : globals ≠ []) :
    strOccurs (String.intercalate ", " globals) (baseClassErrorMessage globals) := by
  unfold baseClassErrorMessage
  rw [if_pos (by simpa [List.length_pos] using h)]
  apply strOccurs_append_left
  apply strOccurs_append_left
  exact strOccurs_refl _

/-- C9: if neither the ESM lookup nor the window-global lookup resolves the
host base class `P5AsciifyAbstractFeatureRenderer2D`, construction throws
an error whose message names the missing symbol and, when any exist, lists
the similarly-named window globals (keys containing "asciify" or "p5",
case-insensitive); if either lookup resolves the class, no error is
thrown. -/
theorem C9_getBaseClass_spec (env : JsEnv) :
    (¬ esmResolves env → ¬ windowResolves env →
      ∃ msg, getBaseClass env = Except.error msg ∧
        strOccurs "P5AsciifyAbstractFeatureRenderer2D" msg ∧
        (availableGlobals env ≠ [] →
          strOccurs (String.intercalate ", " (availableGlobals env)) msg)) ∧
    (esmResolves env ∨ windowResolves env → ∃ c, getBaseClass env = Except.ok c) := by
  constructor
  · intro hesm hwin
    refine ⟨baseClassErrorMessage (availableGlobals env), ?_, ?_, ?_⟩
    · rw [getBaseClass_eq_fallback env hesm, getBaseClassFallback_error env hwin]
    · exact errorMessage_names_symbol _
    · intro hne
      exact errorMessage_lists_globals _ hne
  · rintro (⟨rs, r2d, ft, cls, h1, h2, h3, h4⟩ | hwin)
    · exact ⟨cls, by simp [getBaseClass, h1, h2, h3, h4]⟩
    · by_cases hesm : esmResolves env
      · obtain ⟨rs, r2d, ft, cls, h1, h2, h3, h4⟩ := hesm
        exact ⟨cls, by simp [getBaseClass, h1, h2, h3, h4]⟩
      · obtain ⟨w, g, hw, hg, hf⟩ := hwin
        refine ⟨g.value, ?_⟩
        rw [getBaseClass_eq_fallback env hesm]
        simp [getBaseClassFallback, hw, hg, hf]

/-- C9 witness: an environment where both lookups fail (window present,
keys `["p5Lib", "other"]`) throws the descriptive error, and an
environment where the ESM chain resolves returns the class. -/
theorem C9_getBaseClass_spec_witness :
    (∃ msg,
      getBaseClass ⟨none, some ⟨none, ["p5Lib", "other"]⟩⟩ = Except.error msg ∧
      strOccurs "P5AsciifyAbstractFeatureRenderer2D" msg ∧
      (availableGlobals ⟨none, some ⟨none, ["p5Lib", "other"]⟩⟩ ≠ [] →
        strOccurs
          (String.intercalate ", " (availableGlobals ⟨none, some ⟨none, ["p5Lib", "other"]⟩⟩))
          msg)) ∧
    (∃ c, getBaseClass ⟨some ⟨some ⟨some ⟨some 7⟩⟩⟩, none⟩ = Except.ok c) := by
  constructor
  · refine (C9_getBaseClass_spec _).1 ?_ ?_
    · rintro ⟨rs, r2d, ft, cls, h1, h2, h3, h4⟩
      exact Option.noConfusion h1
    · rintro ⟨w, g, hw, hg, hf⟩
      obtain rfl : (⟨none, ["p5Lib", "other"]⟩ : WindowObj) = w := Option.some.inj hw
      exact Option.noConfusion hg
  · exact (C9_getBaseClass_spec _).2 (Or.inl ⟨_, _, _, 7, rfl, rfl, rfl, rfl⟩)

lemma foldl_add_range (f : ℕ → ℚ) (n : ℕ) (a : ℚ) :
    (List.range n).foldl (fun acc k => acc + f k) a = a + ∑ k ∈ Finset.range n, f k := by
  induction n generalizing a with
  | zero => simp
  | succ n ih =>
      rw [List.range_succ, List.foldl_append, ih, Finset.sum_range_succ]
      simp [add_assoc]

/-- C2 counterexample: an opaque pixel whose luminance (0.495) is strictly
below its cell's average brightness (0.5) — the claim's indicator of
(luminance ≥ average) is 0.0, but the shader outputs 1.0, because the
comparison carries the EPSILON = 0.01 tolerance
(`brightnessDifference < -EPSILON`). -/
theorem C2_counterexample :
    brightnessSplitMain
      ⟨fun _ => ⟨(0.495 : ℚ), (0.495 : ℚ), (0.495 : ℚ), 1⟩,
       fun _ => ⟨(0.5 : ℚ), (0.5 : ℚ), (0.5 : ℚ), 1⟩, ⟨1, 1⟩, 1, 1, 1⟩ ⟨0, 0⟩ =
      ⟨1, 1, 1, 1⟩ ∧
    luminance ((fun (_ : Vec2) => (⟨(0.495 : ℚ), (0.495 : ℚ), (0.495 : ℚ), 1⟩ : Vec4))
        (imageTexCoord
          ⟨fun _ => ⟨(0.495 : ℚ), (0.495 : ℚ), (0.495 : ℚ), 1⟩,
           fun _ => ⟨(0.5 : ℚ), (0.5 : ℚ), (0.5 : ℚ), 1⟩, ⟨1, 1⟩, 1, 1, 1⟩ ⟨0, 0⟩)) <
      averageBrightness
        ⟨fun _ => ⟨(0.495 : ℚ), (0.495 : ℚ), (0.495 : ℚ), 1⟩,
         fun _ => ⟨(0.5 : ℚ), (0.5 : ℚ), (0.5 : ℚ), 1⟩, ⟨1, 1⟩, 1, 1, 1⟩ ⟨0, 0⟩ ∧
    EPSILON ≤ (1 : ℚ) := by
  refine ⟨?_, ?_, by norm_num [EPSILON]⟩
  · norm_num [brightnessSplitMain, imageTexCoord, logicalFragCoord, averageBrightness,
      luminance, EPSILON, qfloor, qclamp]
  · norm_num [imageTexCoord, logicalFragCoord, averageBrightness, luminance, qfloor, qclamp]

/-- C2 (amended): for every opaque source pixel (alpha not below EPSILON),
the Brightness Splitter outputs exactly 0.0 when the pixel's luminance is
below the cell average minus EPSILON (= 0.01), and exactly 1.0 otherwise —
the comparison against the cell average carries the EPSILON tolerance. -/
theorem C2_split_threshold_spec (U : BrightnessSplitUniforms) (fragCoord : Vec2)
    (h : ¬ (U.inputImage (imageTexCoord U fragCoord)).w < EPSILON) :
    brightnessSplitMain U fragCoord =
      if luminance (U.inputImage (imageTexCoord U fragCoord)) <
          averageBrightness U fragCoord - EPSILON
      then ⟨0, 0, 0, 1⟩ else ⟨1, 1, 1, 1⟩ := by
  simp only [brightnessSplitMain]
  rw [if_neg h]
  split_ifs with h1 h2 h2
  · rfl
  · exact absurd (by linarith) h2
  · exact absurd (by linarith) h1
  · rfl

/-- C2 witness: a pixel of luminance 0.6 in a cell of average 0.5 is
classified 1.0. -/
theorem C2_split_threshold_spec_witness :
    ¬ (((fun (_ : Vec2) => (⟨(0.6 : ℚ), (0.6 : ℚ), (0.6 : ℚ), 1⟩ : Vec4))
        (imageTexCoord
          ⟨fun _ => ⟨(0.6 : ℚ), (0.6 : ℚ), (0.6 : ℚ), 1⟩,
           fun _ => ⟨(0.5 : ℚ), (0.5 : ℚ), (0.5 : ℚ), 1⟩, ⟨1, 1⟩, 1, 1, 1⟩ ⟨0, 0⟩)).w <
        EPSILON) ∧
    brightnessSplitMain
      ⟨fun _ => ⟨(0.6 : ℚ), (0.6 : ℚ), (0.6 : ℚ), 1⟩,
       fun _ => ⟨(0.5 : ℚ), (0.5 : ℚ), (0.5 : ℚ), 1⟩, ⟨1, 1⟩, 1, 1, 1⟩ ⟨0, 0⟩ =
      ⟨1, 1, 1, 1⟩ := by
  refine ⟨by norm_num [EPSILON], ?_⟩
  rw [C2_split_threshold_spec
    ⟨fun _ => ⟨(0.6 : ℚ), (0.6 : ℚ), (0.6 : ℚ), 1⟩,
     fun _ => ⟨(0.5 : ℚ), (0.5 : ℚ), (0.5 : ℚ), 1⟩, ⟨1, 1⟩, 1, 1, 1⟩ ⟨0, 0⟩
    (by norm_num [EPSILON])]
  norm_num [imageTexCoord, logicalFragCoord, averageBrightness, luminance, EPSILON,
    qfloor, qclamp]

/-- C3: each grid cell's brightness-sample output is the arithmetic mean,
over the fixed `cellHeight × cellWidth` sub-sample grid baked into the
shader, of the luminance `0.299*R + 0.587*G + 0.114*B` of the sampled
pixels, with every sample coordinate clamped to `[0,1]` texture space —
and the brightness-sample framebuffer is created with resolution grid
cols × rows. -/
theorem C3_brightnessSample_spec (cellHeight cellWidth : ℕ)
    (U : BrightnessSampleUniforms) (fragCoord : Vec2)
    (grid : GridInfo) (capture : CaptureInfo) (font : FontInfo) :
    (brightnessSampleMain cellHeight cellWidth U fragCoord =
      let mean :=
        (∑ s ∈ Finset.range cellHeight, ∑ g ∈ Finset.range cellWidth,
          let c := U.inputImage
            ⟨qclamp (((qfloor fragCoord.x) * (U.inputImageSize.x / (U.gridCols : ℚ)) +
                ((s : ℚ) + (0.5 : ℚ)) * ((U.inputImageSize.x / (U.gridCols : ℚ)) / (cellHeight : ℚ))) /
                U.inputImageSize.x) 0 1,
             qclamp (((qfloor fragCoord.y) * (U.inputImageSize.y / (U.gridRows : ℚ)) +
                ((g : ℚ) + (0.5 : ℚ)) * ((U.inputImageSize.y / (U.gridRows : ℚ)) / (cellWidth : ℚ))) /
                U.inputImageSize.y) 0 1⟩
          (0.299 : ℚ) * c.x + (0.587 : ℚ) * c.y + (0.114 : ℚ) * c.z) /
        ((cellHeight : ℚ) * (cellWidth : ℚ))
      ⟨mean, mean, mean, 1⟩) ∧
    (constructState grid capture font).brightnessSampleFramebuffer = ⟨grid.cols, grid.rows⟩ := by
  refine ⟨?_, rfl⟩
  show brightnessSampleMain cellHeight cellWidth U fragCoord = _
  simp only [brightnessSampleMain]
  have hinner : ∀ (a : ℚ) (s : ℕ),
      (List.range cellWidth).foldl (fun acc g =>
        acc + luminance (U.inputImage
          (bsSampleCoord cellHeight cellWidth U ⟨qfloor fragCoord.x, qfloor fragCoord.y⟩ s g))) a =
      a + ∑ g ∈ Finset.range cellWidth,
        luminance (U.inputImage
          (bsSampleCoord cellHeight cellWidth U ⟨qfloor fragCoord.x, qfloor fragCoord.y⟩ s g)) :=
    fun a s => foldl_add_range _ _ _
  have houter :
      (List.range cellHeight).foldl (fun acc s =>
        (List.range cellWidth).foldl (fun acc g =>
          acc + luminance (U.inputImage
            (bsSampleCoord cellHeight cellWidth U ⟨qfloor fragCoord.x, qfloor fragCoord.y⟩ s g)))
          acc) 0 =
      (List.range cellHeight).foldl (fun acc s =>
        acc + ∑ g ∈ Finset.range cellWidth,
          luminance (U.inputImage
            (bsSampleCoord cellHeight cellWidth U ⟨qfloor fragCoord.x, qfloor fragCoord.y⟩ s g)))
        0 :=
    List.foldl_ext _ _ 0 (fun a s _ => hinner a s)
  rw [houter, foldl_add_range, zero_add]
  simp [luminance, bsSampleCoord]

lemma paletteScan_eq_scanFold (fontSize : ℕ) (U : CharSelUniforms) (fragCoord : Vec2) :
    paletteScan fontSize U fragCoord =
      scanFold (ssdEntry fontSize U fragCoord) (glyphIndex U) (1e20 : ℚ) 0
        (paletteScanCount U) := rfl

lemma scanFold_succ (f g : ℕ → ℚ) (B g0 : ℚ) (n : ℕ) :
    scanFold f g B g0 (n + 1) =
      (if f n < (scanFold f g B g0 n).1 then (f n, g n) else scanFold f g B g0 n) := by
  unfold scanFold
  rw [List.range_succ, List.foldl_append]
  rfl

/-- The palette-scan fold either keeps the initial state (when no entry
beats the initial error bound) or lands on the first index attaining the
minimum of `f` over `0, …, n-1`. -/
lemma scanFold_spec (f g : ℕ → ℚ) (B g0 : ℚ) (n : ℕ) :
    ((∀ k, k < n → B ≤ f k) ∧ scanFold f g B g0 n = (B, g0)) ∨
    (∃ j, j < n ∧ scanFold f g B g0 n = (f j, g j) ∧ f j < B ∧
      (∀ k, k < n → f j ≤ f k) ∧ (∀ k, k < j → f j < f k)) := by
  induction n with
  | zero => exact Or.inl ⟨fun k hk => absurd hk (Nat.not_lt_zero k), rfl⟩
  | succ n ih =>
    rcases ih with ⟨hall, heq⟩ | ⟨j, hj, heq, hjB, hmin, hfirst⟩
    · by_cases hc : f n < B
      · refine Or.inr ⟨n, n.lt_succ_self, ?_, hc, ?_, ?_⟩
        · rw [scanFold_succ, heq]; simp [hc]
        · intro k hk
          rcases Nat.lt_succ_iff_lt_or_eq.mp hk with h | rfl
          · exact le_of_lt (lt_of_lt_of_le hc (hall k h))
          · exact le_refl _
        · intro k hk
          exact lt_of_lt_of_le hc (hall k hk)
      · refine Or.inl ⟨?_, ?_⟩
        · intro k hk
          rcases Nat.lt_succ_iff_lt_or_eq.mp hk with h | rfl
          · exact hall k h
          · exact not_lt.mp hc
        · rw [scanFold_succ, heq]; simp [hc]
    · by_cases hc : f n < f j
      · refine Or.inr ⟨n, n.lt_succ_self, ?_, lt_trans hc hjB, ?_, ?_⟩
        · rw [scanFold_succ, heq]; simp [hc]
        · intro k hk
          rcases Nat.lt_succ_iff_lt_or_eq.mp hk with h | rfl
          · exact le_of_lt (lt_of_lt_of_le hc (hmin k h))
          · exact le_refl _
        · intro k hk
          exact lt_of_lt_of_le hc (hmin k hk)
      · refine Or.inr ⟨j, lt_trans hj n.lt_succ_self, ?_, hjB, ?_, hfirst⟩
        · rw [scanFold_succ, heq]; simp [hc]
        · intro k hk
          rcases Nat.lt_succ_iff_lt_or_eq.mp hk with h | rfl
          · exact hmin k h
          · exact not_lt.mp hc

/-- C1: for a cell that is not fully transparent, the Character Matcher
emits the glyph of the palette entry with strictly minimal SSD error — the
selected entry `j` has error ≤ every scanned entry's error (regardless of
palette position) and strictly smaller error than every earlier entry, so
exact ties are won by the earlier palette entry; the winner's decoded glyph
index is emitted base-256 in the red/green channels. -/
theorem C1_charSelection_minimal_ssd (fontSize : ℕ) (U : CharSelUniforms) (fragCoord : Vec2)
    (hvisible : cellTransparent fontSize U fragCoord = false)
    (hn : 0 < paletteScanCount U)
    (hbound : ∀ k, k < paletteScanCount U → ssdEntry fontSize U fragCoord k < (1e20 : ℚ)) :
    ∃ j, j < paletteScanCount U ∧
      (∀ k, k < paletteScanCount U →
        ssdEntry fontSize U fragCoord j ≤ ssdEntry fontSize U fragCoord k) ∧
      (∀ k, k < j → ssdEntry fontSize U fragCoord j < ssdEntry fontSize U fragCoord k) ∧
      characterSelectionMain fontSize U fragCoord =
        ⟨qmod (glyphIndex U j) 256 / 255, qfloor (glyphIndex U j / 256) / 255, 0, 1⟩ := by
  rcases scanFold_spec (ssdEntry fontSize U fragCoord) (glyphIndex U) (1e20 : ℚ) 0
      (paletteScanCount U) with ⟨hall, _⟩ | ⟨j, hj, heq, _, hmin, hfirst⟩
  · exact absurd (hbound 0 hn) (not_lt.mpr (hall 0 hn))
  · refine ⟨j, hj, hmin, hfirst, ?_⟩
    unfold characterSelectionMain
    rw [hvisible, paletteScan_eq_scanFold, heq]
    simp

/-- C1 witness: font size 1, a black opaque mask, a 2-entry palette whose
glyph 0 is white and glyph 1 is black — the scan selects entry 1 (the
strictly lower SSD) even though entry 0 comes first. -/
theorem C1_charSelection_minimal_ssd_witness :
    ∃ j, j < paletteScanCount
        ⟨(fun p => if p.x < (1 : ℚ)/2 then ⟨1, 1, 1, 1⟩ else ⟨0, 0, 0, 1⟩), 2, 1,
         (fun _ => ⟨0, 0, 0, 1⟩), ⟨2, 2⟩, ⟨2, 2⟩,
         (fun p => if p.x < (1 : ℚ)/2 then ⟨0, 0, 0, 1⟩ else ⟨(1 : ℚ)/255, 0, 0, 1⟩), 2, 1⟩ ∧
      (∀ k, k < paletteScanCount
          ⟨(fun p => if p.x < (1 : ℚ)/2 then ⟨1, 1, 1, 1⟩ else ⟨0, 0, 0, 1⟩), 2, 1,
           (fun _ => ⟨0, 0, 0, 1⟩), ⟨2, 2⟩, ⟨2, 2⟩,
           (fun p => if p.x < (1 : ℚ)/2 then ⟨0, 0, 0, 1⟩ else ⟨(1 : ℚ)/255, 0, 0, 1⟩), 2, 1⟩ →
        ssdEntry 1
          ⟨(fun p => if p.x < (1 : ℚ)/2 then ⟨1, 1, 1, 1⟩ else ⟨0, 0, 0, 1⟩), 2, 1,
           (fun _ => ⟨0, 0, 0, 1⟩), ⟨2, 2⟩, ⟨2, 2⟩,
           (fun p => if p.x < (1 : ℚ)/2 then ⟨0, 0, 0, 1⟩ else ⟨(1 : ℚ)/255, 0, 0, 1⟩), 2, 1⟩
          ⟨0, 0⟩ j ≤
        ssdEntry 1
          ⟨(fun p => if p.x < (1 : ℚ)/2 then ⟨1, 1, 1, 1⟩ else ⟨0, 0, 0, 1⟩), 2, 1,
           (fun _ => ⟨0, 0, 0, 1⟩), ⟨2, 2⟩, ⟨2, 2⟩,
           (fun p => if p.x < (1 : ℚ)/2 then ⟨0, 0, 0, 1⟩ else ⟨(1 : ℚ)/255, 0, 0, 1⟩), 2, 1⟩
          ⟨0, 0⟩ k) ∧
      (∀ k, k < j →
        ssdEntry 1
          ⟨(fun p => if p.x < (1 : ℚ)/2 then ⟨1, 1, 1, 1⟩ else ⟨0, 0, 0, 1⟩), 2, 1,
           (fun _ => ⟨0, 0, 0, 1⟩), ⟨2, 2⟩, ⟨2, 2⟩,
           (fun p => if p.x < (1 : ℚ)/2 then ⟨0, 0, 0, 1⟩ else ⟨(1 : ℚ)/255, 0, 0, 1⟩), 2, 1⟩
          ⟨0, 0⟩ j <
        ssdEntry 1
          ⟨(fun p => if p.x < (1 : ℚ)/2 then ⟨1, 1, 1, 1⟩ else ⟨0, 0, 0, 1⟩), 2, 1,
           (fun _ => ⟨0, 0, 0, 1⟩), ⟨2, 2⟩, ⟨2, 2⟩,
           (fun p => if p.x < (1 : ℚ)/2 then ⟨0, 0, 0, 1⟩ else ⟨(1 : ℚ)/255, 0, 0, 1⟩), 2, 1⟩
          ⟨0, 0⟩ k) ∧
      characterSelectionMain 1
        ⟨(fun p => if p.x < (1 : ℚ)/2 then ⟨1, 1, 1, 1⟩ else ⟨0, 0, 0, 1⟩), 2, 1,
         (fun _ => ⟨0, 0, 0, 1⟩), ⟨2, 2⟩, ⟨2, 2⟩,
         (fun p => if p.x < (1 : ℚ)/2 then ⟨0, 0, 0, 1⟩ else ⟨(1 : ℚ)/255, 0, 0, 1⟩), 2, 1⟩
        ⟨0, 0⟩ =
        ⟨qmod (glyphIndex
            ⟨(fun p => if p.x < (1 : ℚ)/2 then ⟨1, 1, 1, 1⟩ else ⟨0, 0, 0, 1⟩), 2, 1,
             (fun _ => ⟨0, 0, 0, 1⟩), ⟨2, 2⟩, ⟨2, 2⟩,
             (fun p => if p.x < (1 : ℚ)/2 then ⟨0, 0, 0, 1⟩ else ⟨(1 : ℚ)/255, 0, 0, 1⟩), 2, 1⟩
            j) 256 / 255,
         qfloor (glyphIndex
            ⟨(fun p => if p.x < (1 : ℚ)/2 then ⟨1, 1, 1, 1⟩ else ⟨0, 0, 0, 1⟩), 2, 1,
             (fun _ => ⟨0, 0, 0, 1⟩), ⟨2, 2⟩, ⟨2, 2⟩,
             (fun p => if p.x < (1 : ℚ)/2 then ⟨0, 0, 0, 1⟩ else ⟨(1 : ℚ)/255, 0, 0, 1⟩), 2, 1⟩
            j / 256) / 255, 0, 1⟩ := by
  refine C1_charSelection_minimal_ssd 1 _ ⟨0, 0⟩ ?_ ?_ ?_
  · norm_num [cellTransparent, maskSampleCoord, csCellOrigin, csCellSize, qfloor]
  · norm_num [paletteScanCount]
  · intro k hk
    have hk2 : k < 2 := by simpa [paletteScanCount] using hk
    interval_cases k <;>
      norm_num [ssdEntry, glyphIndex, glyphAtlasOrigin, paletteEntryCoord, maskSampleCoord,
        csCellOrigin, csCellSize, qfloor, List.range_succ, List.range_zero, List.foldl_append,
        List.foldl_cons, List.foldl_nil]

lemma cellTransparent_true_iff (fontSize : ℕ) (U : CharSelUniforms) (fragCoord : Vec2) :
    cellTransparent fontSize U fragCoord = true ↔
      ∀ u2, u2 < fontSize → ∀ f2, f2 < fontSize →
        (U.sketchTexture (maskSampleCoord fontSize U fragCoord u2 f2)).w ≤ 0 := by
  simp [cellTransparent, List.all_eq_true, List.mem_range]

/-- C4: assuming sampled alphas are nonnegative (as texture values are),
a cell all of whose fixed sub-samples have zero alpha makes the Character
Matcher emit the all-zero sentinel `vec4(0)` (the palette comparison is
skipped by the early return), while a cell with at least one sub-sample of
nonzero alpha proceeds to matching and yields output alpha 1. -/
theorem C4_transparent_cell_sentinel (fontSize : ℕ) (U : CharSelUniforms) (fragCoord : Vec2)
    (halpha : ∀ u2, u2 < fontSize → ∀ f2, f2 < fontSize →
      0 ≤ (U.sketchTexture (maskSampleCoord fontSize U fragCoord u2 f2)).w) :
    ((∀ u2, u2 < fontSize → ∀ f2, f2 < fontSize →
        (U.sketchTexture (maskSampleCoord fontSize U fragCoord u2 f2)).w = 0) →
      characterSelectionMain fontSize U fragCoord = ⟨0, 0, 0, 0⟩) ∧
    ((∃ u2, u2 < fontSize ∧ ∃ f2, f2 < fontSize ∧
        (U.sketchTexture (maskSampleCoord fontSize U fragCoord u2 f2)).w ≠ 0) →
      (characterSelectionMain fontSize U fragCoord).w = 1) := by
  constructor
  · intro hz
    have ht : cellTransparent fontSize U fragCoord = true :=
      (cellTransparent_true_iff _ _ _).mpr (fun u2 hu f2 hf => le_of_eq (hz u2 hu f2 hf))
    simp [characterSelectionMain, ht]
  · rintro ⟨u2, hu, f2, hf, hw⟩
    have hft : cellTransparent fontSize U fragCoord = false := by
      cases hb : cellTransparent fontSize U fragCoord with
      | false => rfl
      | true =>
          have hle := (cellTransparent_true_iff _ _ _).mp hb u2 hu f2 hf
          exact absurd (le_antisymm hle (halpha u2 hu f2 hf)) hw
    simp [characterSelectionMain, hft]

/-- C4 witness: with an everywhere-transparent binary mask, the cell at
fragment (0,0) gets the sentinel output. -/
theorem C4_transparent_cell_sentinel_witness :
    characterSelectionMain 1
      ⟨(fun _ => ⟨0, 0, 0, 0⟩), 1, 1, (fun _ => ⟨0, 0, 0, 0⟩), ⟨1, 1⟩, ⟨1, 1⟩,
       (fun _ => ⟨0, 0, 0, 0⟩), 1, 1⟩ ⟨0, 0⟩ = ⟨0, 0, 0, 0⟩ :=
  (C4_transparent_cell_sentinel 1
    ⟨(fun _ => ⟨0, 0, 0, 0⟩), 1, 1, (fun _ => ⟨0, 0, 0, 0⟩), ⟨1, 1⟩, ⟨1, 1⟩,
     (fun _ => ⟨0, 0, 0, 0⟩), 1, 1⟩ ⟨0, 0⟩
    (fun _ _ _ _ => le_refl 0)).1 (fun _ _ _ _ => rfl)

lemma firstOccurrences_step (acc : List (ℚ × ℚ × ℚ)) (l : List Vec4) (m : Vec4) :
    (l ++ [m]).foldl (fun acc m => if rgb m ∈ acc then acc else acc ++ [rgb m]) acc =
      (if rgb m ∈ l.foldl (fun acc m => if rgb m ∈ acc then acc else acc ++ [rgb m]) acc
       then l.foldl (fun acc m => if rgb m ∈ acc then acc else acc ++ [rgb m]) acc
       else l.foldl (fun acc m => if rgb m ∈ acc then acc else acc ++ [rgb m]) acc ++ [rgb m]) := by
  rw [List.foldl_append]
  rfl

lemma firstOccurrences_append (l : List Vec4) (m : Vec4) :
    firstOccurrences (l ++ [m]) =
      (if rgb m ∈ firstOccurrences l then firstOccurrences l
       else firstOccurrences l ++ [rgb m]) :=
  firstOccurrences_step [] l m

lemma firstOccurrences_aux_mem (l : List Vec4) :
    ∀ (acc : List (ℚ × ℚ × ℚ)) (c : ℚ × ℚ × ℚ),
      (c ∈ l.foldl (fun acc m => if rgb m ∈ acc then acc else acc ++ [rgb m]) acc ↔
        c ∈ acc ∨ ∃ x ∈ l, rgb x = c) := by
  induction l with
  | nil => intro acc c; simp
  | cons m l ih =>
      intro acc c
      rw [List.foldl_cons, ih]
      by_cases h : rgb m ∈ acc
      · rw [if_pos h]
        constructor
        · rintro (hc | hx)
          · exact Or.inl hc
          · obtain ⟨x, hx, rfl⟩ := hx
            exact Or.inr ⟨x, List.mem_cons_of_mem m hx, rfl⟩
        · rintro (hc | ⟨x, hx, rfl⟩)
          · exact Or.inl hc
          · rcases List.mem_cons.mp hx with rfl | hx
            · exact Or.inl h
            · exact Or.inr ⟨x, hx, rfl⟩
      · rw [if_neg h]
        constructor
        · rintro (hc | hx)
          · rcases List.mem_append.mp hc with hc | hc
            · exact Or.inl hc
            · exact Or.inr ⟨m, List.mem_cons_self m l, (List.mem_singleton.mp hc).symm⟩
          · obtain ⟨x, hx, rfl⟩ := hx
            exact Or.inr ⟨x, List.mem_cons_of_mem m hx, rfl⟩
        · rintro (hc | ⟨x, hx, rfl⟩)
          · exact Or.inl (List.mem_append.mpr (Or.inl hc))
          · rcases List.mem_cons.mp hx with rfl | hx
            · exact Or.inl (List.mem_append.mpr (Or.inr (List.mem_singleton.mpr rfl)))
            · exact Or.inr ⟨x, hx, rfl⟩

lemma firstOccurrences_mem (l : List Vec4) (c : ℚ × ℚ × ℚ) :
    c ∈ firstOccurrences l ↔ ∃ x ∈ l, rgb x = c := by
  rw [firstOccurrences, firstOccurrences_aux_mem]
  simp

lemma firstOccurrences_aux_nodup (l : List Vec4) :
    ∀ acc : List (ℚ × ℚ × ℚ), acc.Nodup →
      (l.foldl (fun acc m => if rgb m ∈ acc then acc else acc ++ [rgb m]) acc).Nodup := by
  induction l with
  | nil => intro acc h; simpa using h
  | cons m l ih =>
      intro acc h
      rw [List.foldl_cons]
      by_cases hm : rgb m ∈ acc
      · rw [if_pos hm]; exact ih acc h
      · rw [if_neg hm]
        exact ih _ (by simpa [List.nodup_append] using ⟨h, hm⟩)

lemma firstOccurrences_nodup (l : List Vec4) : (firstOccurrences l).Nodup :=
  firstOccurrences_aux_nodup l [] List.nodup_nil

lemma countColor_append (l : List Vec4) (m : Vec4) (c : ℚ × ℚ × ℚ) :
    countColor (l ++ [m]) c = countColor l c + (if rgb m = c then 1 else 0) := by
  unfold countColor
  rw [List.filter_append, List.length_append]
  by_cases h : rgb m = c <;> simp [h]

lemma countColor_pos_of_mem (l : List Vec4) (c : ℚ × ℚ × ℚ)
    (h : c ∈ firstOccurrences l) : 1 ≤ countColor l c := by
  obtain ⟨x, hx, rfl⟩ := (firstOccurrences_mem l c).mp h
  have : x ∈ l.filter (fun m => rgb m = rgb x) := List.mem_filter.mpr ⟨hx, by simp⟩
  have hlen := List.length_pos.mpr (List.ne_nil_of_mem this)
  exact hlen

lemma countColor_eq_zero (l : List Vec4) (c : ℚ × ℚ × ℚ)
    (h : c ∉ firstOccurrences l) : countColor l c = 0 := by
  unfold countColor
  rw [List.length_eq_zero, List.filter_eq_nil_iff]
  intro x hx
  simp only [decide_eq_true_eq]
  intro hc
  exact h ((firstOccurrences_mem l c).mpr ⟨x, hx, hc⟩)

lemma bumpFirstMatch_cons (m c : Vec4) (b : ℚ) (rest : List (Vec4 × ℚ)) :
    bumpFirstMatch m ((c, b) :: rest) =
      (if rgb m = rgb c then some ((c, b + 1) :: rest)
       else (bumpFirstMatch m rest).map (fun l => (c, b) :: l)) := by
  by_cases h : rgb m = rgb c
  · have hc : m.x = c.x ∧ m.y = c.y ∧ m.z = c.z := by
      have h' := h
      simp only [rgb, Prod.mk.injEq] at h'
      exact h'
    simp [bumpFirstMatch, hc, h]
  · have hc : ¬ (m.x = c.x ∧ m.y = c.y ∧ m.z = c.z) := by
      rintro ⟨h1, h2, h3⟩
      exact h (by simp [rgb, h1, h2, h3])
    simp [bumpFirstMatch, hc, h]

lemma bumpFirstMatch_none_of (m : Vec4) :
    ∀ P : List (Vec4 × ℚ), (∀ x ∈ P, rgb x.1 ≠ rgb m) → bumpFirstMatch m P = none := by
  intro P
  induction P with
  | nil => intro _; rfl
  | cons b rest ih =>
      intro h
      obtain ⟨c, bq⟩ := b
      rw [bumpFirstMatch_cons,
        if_neg (fun hc => h (c, bq) (List.mem_cons_self _ _) hc.symm), ih]
      · rfl
      · exact fun x hx => h x (List.mem_cons_of_mem _ hx)

lemma bumpFirstMatch_append_some (m : Vec4) :
    ∀ (P P' Q : List (Vec4 × ℚ)), bumpFirstMatch m P = some P' →
      bumpFirstMatch m (P ++ Q) = some (P' ++ Q) := by
  intro P
  induction P with
  | nil => intro P' Q h; exact Option.noConfusion h
  | cons b rest ih =>
      intro P' Q h
      obtain ⟨c, bq⟩ := b
      rw [bumpFirstMatch_cons] at h
      rw [List.cons_append, bumpFirstMatch_cons]
      by_cases hc : rgb m = rgb c
      · rw [if_pos hc] at h ⊢
        obtain rfl := Option.some.inj h
        rfl
      · rw [if_neg hc] at h ⊢
        cases hrest : bumpFirstMatch m rest with
        | none => rw [hrest] at h; exact Option.noConfusion h
        | some R =>
            rw [hrest] at h
            obtain rfl := Option.some.inj (by simpa using h)
            rw [ih R Q hrest]
            rfl

lemma bumpFirstMatch_append_none (m : Vec4) :
    ∀ (P Q : List (Vec4 × ℚ)), bumpFirstMatch m P = none →
      bumpFirstMatch m (P ++ Q) = (bumpFirstMatch m Q).map (fun l => P ++ l) := by
  intro P
  induction P with
  | nil => intro Q h; simp
  | cons b rest ih =>
      intro Q h
      obtain ⟨c, bq⟩ := b
      rw [bumpFirstMatch_cons] at h
      rw [List.cons_append, bumpFirstMatch_cons]
      by_cases hc : rgb m = rgb c
      · rw [if_pos hc] at h; exact Option.noConfusion h
      · rw [if_neg hc] at h ⊢
        cases hrest : bumpFirstMatch m rest with
        | none =>
            rw [ih Q hrest]
            cases bumpFirstMatch m Q <;> rfl
        | some R => rw [hrest] at h; exact Option.noConfusion h

lemma bumpFirstMatch_tally (m : Vec4) :
    ∀ P : List (Vec4 × ℚ), (P.map (fun b => rgb b.1)).Nodup →
      rgb m ∈ P.map (fun b => rgb b.1) →
      ∃ P', bumpFirstMatch m P = some P' ∧
        P'.map (fun b => rgb b.1) = P.map (fun b => rgb b.1) ∧
        P'.map Prod.snd = P.map (fun b => if rgb b.1 = rgb m then b.2 + 1 else b.2) := by
  intro P
  induction P with
  | nil => intro _ hm; simp at hm
  | cons b rest ih =>
      intro hnd hm
      obtain ⟨c, bq⟩ := b
      have hnd2 : ((rgb c) :: rest.map (fun b => rgb b.1)).Nodup := by
        simpa only [List.map_cons] using hnd
      have hm2 : rgb m ∈ (rgb c) :: rest.map (fun b => rgb b.1) := by
        simpa only [List.map_cons] using hm
      by_cases hc : rgb m = rgb c
      · refine ⟨(c, bq + 1) :: rest, ?_, by simp, ?_⟩
        · rw [bumpFirstMatch_cons, if_pos hc]
        · have hnotin : rgb c ∉ rest.map (fun b => rgb b.1) :=
            (List.nodup_cons.mp hnd2).1
          rw [List.map_cons, List.map_cons]
          refine congrArg₂ _ ?_ ?_
          · exact (if_pos hc.symm).symm
          · refine List.map_congr_left ?_
            intro x hx
            rw [if_neg]
            intro hxm
            have hmem := List.mem_map_of_mem (fun b => rgb b.1) hx
            exact hnotin ((hxm.trans hc) ▸ hmem)
      · have hm' : rgb m ∈ rest.map (fun b => rgb b.1) := by
          rcases List.mem_cons.mp hm2 with h | h
          · exact absurd h hc
          · exact h
        obtain ⟨P', hP', hr, hs⟩ := ih (List.nodup_cons.mp hnd2).2 hm'
        refine ⟨(c, bq) :: P', ?_, ?_, ?_⟩
        · rw [bumpFirstMatch_cons, if_neg hc, hP']; rfl
        · rw [List.map_cons, List.map_cons, hr]
        · rw [List.map_cons, List.map_cons, hs]
          refine congrArg₂ _ ?_ rfl
          exact (if_neg (fun h => hc h.symm)).symm

lemma fillFirstFree_append (m : Vec4) :
    ∀ (P Z : List (Vec4 × ℚ)), (∀ x ∈ P, x.2 ≠ 0) →
      fillFirstFree m (P ++ (⟨0, 0, 0, 0⟩, 0) :: Z) = P ++ (m, 1) :: Z := by
  intro P
  induction P with
  | nil => intro Z _; simp [fillFirstFree]
  | cons b rest ih =>
      intro Z h
      obtain ⟨c, bq⟩ := b
      rw [List.cons_append]
      show fillFirstFree m ((c, bq) :: (rest ++ _)) = _
      unfold fillFirstFree
      rw [if_neg (h (c, bq) (List.mem_cons_self _ _)), ih Z (fun x hx => h x (List.mem_cons_of_mem _ hx))]
      rfl

lemma map_eq_map_mem {α β : Type} (f g : α → β) :
    ∀ l : List α, l.map f = l.map g → ∀ x ∈ l, f x = g x := by
  intro l
  induction l with
  | nil => intro _ x hx; simp at hx
  | cons a l ih =>
      intro h x hx
      rw [List.map_cons, List.map_cons] at h
      obtain ⟨h1, h2⟩ := List.cons.inj h
      rcases List.mem_cons.mp hx with rfl | hx
      · exact h1
      · exact ih h2 x hx

lemma map_snd_bump (c0 : ℚ × ℚ × ℚ) (cnt : (ℚ × ℚ × ℚ) → ℕ) :
    ∀ (P : List (Vec4 × ℚ)) (F : List (ℚ × ℚ × ℚ)),
      P.map (fun b => rgb b.1) = F →
      P.map Prod.snd = F.map (fun c => (cnt c : ℚ)) →
      P.map (fun b => if rgb b.1 = c0 then b.2 + 1 else b.2) =
        F.map (fun c => ((cnt c + if c0 = c then 1 else 0 : ℕ) : ℚ)) := by
  intro P
  induction P with
  | nil =>
      intro F hr _
      rw [List.map_nil] at hr
      rw [← hr]
      simp
  | cons b P ih =>
      intro F hr hs
      cases F with
      | nil => rw [List.map_cons] at hr; exact absurd hr (by simp)
      | cons f F =>
          rw [List.map_cons] at hr hs
          obtain ⟨hr1, hr2⟩ := List.cons.inj hr
          rw [List.map_cons] at hs
          obtain ⟨hs1, hs2⟩ := List.cons.inj hs
          rw [List.map_cons, List.map_cons, ih F hr2 hs2]
          refine congrArg₂ _ ?_ rfl
          rw [hr1, hs1]
          by_cases hc : f = c0
          · rw [if_pos hc, if_pos hc.symm]
            push_cast
            ring
          · rw [if_neg hc, if_neg (fun h => hc h.symm)]
            push_cast
            ring

/-- The bucket array after tallying a sample list `l` (with at most `e`
distinct colors): the filled prefix holds the distinct colors in
first-encounter order with their occurrence counts, followed by untouched
zero buckets. -/
lemma tally_invariant (e : ℕ) :
    ∀ l : List Vec4, (firstOccurrences l).length ≤ e →
      ∃ P, l.foldl tallyStep (initBuckets e) =
          P ++ List.replicate (e - (firstOccurrences l).length) (⟨0, 0, 0, 0⟩, 0) ∧
        P.map (fun b => rgb b.1) = firstOccurrences l ∧
        P.map Prod.snd = (firstOccurrences l).map (fun c => (countColor l c : ℚ)) := by
  intro l
  induction l using List.reverseRecOn with
  | nil =>
      intro _
      refine ⟨[], ?_, rfl, rfl⟩
      simp [initBuckets, firstOccurrences]
  | append_singleton l m ih =>
      intro hlen'
      rw [List.foldl_append, List.foldl_cons, List.foldl_nil]
      by_cases hmem : rgb m ∈ firstOccurrences l
      · have hfo : firstOccurrences (l ++ [m]) = firstOccurrences l := by
          rw [firstOccurrences_append, if_pos hmem]
        rw [hfo] at hlen' ⊢
        obtain ⟨P, hB, hr, hs⟩ := ih hlen'
        have hnd : (P.map (fun b => rgb b.1)).Nodup := by
          rw [hr]; exact firstOccurrences_nodup l
        have hmP : rgb m ∈ P.map (fun b => rgb b.1) := by rw [hr]; exact hmem
        obtain ⟨P', hbump, hr', hs'⟩ := bumpFirstMatch_tally m P hnd hmP
        refine ⟨P', ?_, hr'.trans hr, ?_⟩
        · rw [hB]
          unfold tallyStep
          rw [bumpFirstMatch_append_some m P P' _ hbump]
        · rw [hs', map_snd_bump (rgb m) (countColor l) P (firstOccurrences l) hr hs]
          refine List.map_congr_left ?_
          intro c _
          rw [countColor_append]
      · have hfo : firstOccurrences (l ++ [m]) = firstOccurrences l ++ [rgb m] := by
          rw [firstOccurrences_append, if_neg hmem]
        rw [hfo] at hlen' ⊢
        rw [List.length_append, List.length_singleton] at hlen'
        have hlen : (firstOccurrences l).length ≤ e := le_trans (Nat.le_succ _) hlen'
        have hlt : (firstOccurrences l).length < e := hlen'
        obtain ⟨P, hB, hr, hs⟩ := ih hlen
        have hrep : e - (firstOccurrences l).length =
            (e - ((firstOccurrences l).length + 1)) + 1 := by omega
        have hPne : ∀ x ∈ P, rgb x.1 ≠ rgb m := by
          intro x hx hxr
          exact hmem (hr ▸ (hxr ▸ List.mem_map_of_mem (fun b => rgb b.1) hx))
        have hbnone : bumpFirstMatch m P = none := bumpFirstMatch_none_of m P hPne
        have hcnt2 : P.map Prod.snd =
            P.map (fun b => ((countColor l (rgb b.1) : ℕ) : ℚ)) := by
          rw [hs, ← hr, List.map_map]
          rfl
        have hPpos : ∀ x ∈ P, x.2 ≠ 0 := by
          intro x hx
          rw [map_eq_map_mem _ _ P hcnt2 x hx]
          have h1 : 1 ≤ countColor l (rgb x.1) := by
            refine countColor_pos_of_mem l (rgb x.1) ?_
            rw [← hr]
            exact List.mem_map_of_mem (fun b => rgb b.1) hx
          intro hzero
          rw [show ((countColor l (rgb x.1) : ℕ) : ℚ) = 0 ↔ countColor l (rgb x.1) = 0 from
            by exact_mod_cast Iff.rfl] at hzero
          omega
        have hcounts : (firstOccurrences l).map (fun c => (countColor (l ++ [m]) c : ℚ)) =
            (firstOccurrences l).map (fun c => (countColor l c : ℚ)) := by
          refine List.map_congr_left ?_
          intro c hc
          rw [countColor_append, if_neg (fun h => hmem (by rw [h]; exact hc))]
          simp
        have hcm : countColor (l ++ [m]) (rgb m) = 1 := by
          rw [countColor_append, if_pos rfl, countColor_eq_zero l (rgb m) hmem]
        by_cases hblack : rgb m = ((0 : ℚ), (0 : ℚ), (0 : ℚ))
        · refine ⟨P ++ [(⟨0, 0, 0, 0⟩, (1 : ℚ))], ?_, ?_, ?_⟩
          · rw [hB, hrep, List.replicate_succ]
            unfold tallyStep
            rw [bumpFirstMatch_append_none m P _ hbnone, bumpFirstMatch_cons,
              if_pos (by rw [hblack]; rfl)]
            simp
          · rw [List.map_append, hr]
            refine congrArg₂ _ rfl ?_
            rw [List.map_singleton]
            rw [show rgb (⟨0, 0, 0, 0⟩ : Vec4) = ((0 : ℚ), (0 : ℚ), (0 : ℚ)) from rfl, hblack]
          · rw [List.map_append, List.map_append, hs, hcounts]
            refine congrArg₂ _ rfl ?_
            rw [List.map_singleton, List.map_singleton, hcm]
            norm_num
        · refine ⟨P ++ [(m, (1 : ℚ))], ?_, ?_, ?_⟩
          · rw [hB, hrep, List.replicate_succ]
            unfold tallyStep
            rw [bumpFirstMatch_append_none m P _ hbnone,
              bumpFirstMatch_none_of m _ ?_, fillFirstFree_append m P _ hPpos]
            · simp
            · intro x hx hxr
              rcases List.mem_cons.mp hx with rfl | hx2
              · exact hblack hxr.symm
              · rw [List.eq_of_mem_replicate hx2] at hxr
                exact hblack hxr.symm
          · rw [List.map_append, hr, List.map_singleton]
          · rw [List.map_append, List.map_append, hs, hcounts]
            refine congrArg₂ _ rfl ?_
            rw [List.map_singleton, List.map_singleton, hcm]
            norm_num

lemma listMaxQ_cons (z : ℚ) (b : Vec4 × ℚ) (rest : List (Vec4 × ℚ)) :
    listMaxQ z (b :: rest) = listMaxQ (max z b.2) rest := rfl

lemma pickFirst_cons (z : ℚ) (m : Vec4) (b : Vec4 × ℚ) (rest : List (Vec4 × ℚ)) :
    pickFirst z m (b :: rest) =
      (if b.2 > z then pickFirst b.2 b.1 rest else pickFirst z m rest) := rfl

lemma selectFold_eq_pair :
    ∀ (bs : List (Vec4 × ℚ)) (z : ℚ) (m : Vec4),
      bs.foldl (fun acc b => if b.2 > acc.1 then (b.2, b.1) else acc) (z, m) =
        (listMaxQ z bs, pickFirst z m bs) := by
  intro bs
  induction bs with
  | nil => intro z m; rfl
  | cons b rest ih =>
      intro z m
      rw [List.foldl_cons, listMaxQ_cons, pickFirst_cons]
      by_cases h : b.2 > z
      · have hstep : (if b.2 > (z, m).1 then (b.2, b.1) else (z, m)) = (b.2, b.1) := by
          simp [h]
        rw [hstep, ih, max_eq_right (le_of_lt h), if_pos h]
      · have hstep : (if b.2 > (z, m).1 then (b.2, b.1) else (z, m)) = (z, m) := by
          simp [h]
        rw [hstep, ih, max_eq_left (le_of_not_lt h), if_neg h]

lemma selectMax_eq_pair (bs : List (Vec4 × ℚ)) :
    selectMax bs = (listMaxQ 0 bs, pickFirst 0 ⟨0, 0, 0, 0⟩ bs) :=
  selectFold_eq_pair bs 0 ⟨0, 0, 0, 0⟩

lemma le_listMaxQ : ∀ (bs : List (Vec4 × ℚ)) (z : ℚ), z ≤ listMaxQ z bs := by
  intro bs
  induction bs with
  | nil => intro z; exact le_refl z
  | cons b rest ih =>
      intro z
      rw [listMaxQ_cons]
      exact le_trans (le_max_left z b.2) (ih (max z b.2))

lemma mem_le_listMaxQ : ∀ (bs : List (Vec4 × ℚ)) (z : ℚ) (b : Vec4 × ℚ), b ∈ bs →
    b.2 ≤ listMaxQ z bs := by
  intro bs
  induction bs with
  | nil => intro z b hb; simp at hb
  | cons c rest ih =>
      intro z b hb
      rw [listMaxQ_cons]
      rcases List.mem_cons.mp hb with rfl | hb
      · exact le_trans (le_max_right z b.2) (le_listMaxQ rest _)
      · exact ih (max z c.2) b hb

lemma pickFirst_no_exceed : ∀ (bs : List (Vec4 × ℚ)) (z : ℚ) (m : Vec4),
    (∀ b ∈ bs, b.2 ≤ z) → pickFirst z m bs = m := by
  intro bs
  induction bs with
  | nil => intro z m _; rfl
  | cons b rest ih =>
      intro z m h
      rw [pickFirst_cons, if_neg (not_lt.mpr (h b (List.mem_cons_self _ _)))]
      exact ih z m (fun x hx => h x (List.mem_cons_of_mem _ hx))

lemma listMaxQ_append (z : ℚ) (P Z : List (Vec4 × ℚ)) :
    listMaxQ z (P ++ Z) = listMaxQ (listMaxQ z P) Z := by
  unfold listMaxQ
  rw [List.foldl_append]

lemma listMaxQ_replicate_zero (k : ℕ) (w : ℚ) (hw : 0 ≤ w) :
    listMaxQ w (List.replicate k (⟨0, 0, 0, 0⟩, 0)) = w := by
  induction k with
  | zero => rfl
  | succ k ih =>
      rw [List.replicate_succ, listMaxQ_cons]
      simpa [max_eq_left hw] using ih

lemma pickFirst_append (P : List (Vec4 × ℚ)) :
    ∀ (Z : List (Vec4 × ℚ)) (z : ℚ) (m : Vec4),
      pickFirst z m (P ++ Z) = pickFirst (listMaxQ z P) (pickFirst z m P) Z := by
  induction P with
  | nil => intro Z z m; rfl
  | cons b rest ih =>
      intro Z z m
      rw [List.cons_append, pickFirst_cons, pickFirst_cons, listMaxQ_cons]
      by_cases h : b.2 > z
      · rw [if_pos h, if_pos h, ih, max_eq_right (le_of_lt h)]
      · rw [if_neg h, if_neg h, ih, max_eq_left (le_of_not_lt h)]

lemma pickFirst_eq_find (P : List (Vec4 × ℚ)) :
    ∀ (z : ℚ) (m : Vec4), z < listMaxQ z P →
      ∃ b, P.find? (fun b => decide (listMaxQ z P ≤ b.2)) = some b ∧
        pickFirst z m P = b.1 := by
  induction P with
  | nil => intro z m h; exact absurd h (lt_irrefl z)
  | cons b rest ih =>
      intro z m h
      by_cases hb : listMaxQ z (b :: rest) ≤ b.2
      · refine ⟨b, ?_, ?_⟩
        · exact List.find?_cons_of_pos _ (by simpa using hb)
        · have hbz : z < b.2 := lt_of_lt_of_le h hb
          rw [pickFirst_cons, if_pos hbz]
          refine pickFirst_no_exceed rest b.2 b.1 ?_
          intro r hr
          refine le_trans ?_ hb
          rw [listMaxQ_cons]
          exact mem_le_listMaxQ rest (max z b.2) r hr
      · push_neg at hb
        have hMrw : listMaxQ z (b :: rest) = listMaxQ (max z b.2) rest := listMaxQ_cons _ _ _
        by_cases hzb : b.2 > z
        · have hmz : max z b.2 = b.2 := max_eq_right (le_of_lt hzb)
          have hlt2 : b.2 < listMaxQ b.2 rest := by
            have h' := max_lt h hb
            rw [hMrw] at h'
            rw [hmz] at h'
            exact h'
          obtain ⟨b', hf, hp⟩ := ih b.2 b.1 hlt2
          have hMeq : listMaxQ b.2 rest = listMaxQ z (b :: rest) := by
            rw [hMrw, hmz]
          rw [hMeq] at hf
          refine ⟨b', ?_, ?_⟩
          · rw [List.find?_cons_of_neg _ (by simpa using not_le.mpr hb), hf]
          · rw [pickFirst_cons, if_pos hzb, hp]
        · have hmz : max z b.2 = z := max_eq_left (le_of_not_lt hzb)
          have hlt2 : z < listMaxQ z rest := by
            have h' := max_lt h hb
            rw [hMrw] at h'
            rw [hmz] at h'
            exact h'
          obtain ⟨b', hf, hp⟩ := ih z m hlt2
          have hMeq : listMaxQ z rest = listMaxQ z (b :: rest) := by
            rw [hMrw, hmz]
          rw [hMeq] at hf
          refine ⟨b', ?_, ?_⟩
          · rw [List.find?_cons_of_neg _ (by simpa using not_le.mpr hb), hf]
          · rw [pickFirst_cons, if_neg hzb, hp]

lemma find?_map_rgb (qP : Vec4 × ℚ → Bool) (qF : (ℚ × ℚ × ℚ) → Bool) :
    ∀ P : List (Vec4 × ℚ), (∀ b ∈ P, qP b = qF (rgb b.1)) →
      ((P.find? qP).map (fun b => rgb b.1)) = (P.map (fun b => rgb b.1)).find? qF := by
  intro P
  induction P with
  | nil => intro _; rfl
  | cons b rest ih =>
      intro h
      have hqb := h b (List.mem_cons_self _ _)
      cases hq : qP b with
      | true =>
          rw [List.find?_cons_of_pos _ hq, List.map_cons,
            List.find?_cons_of_pos _ (by rw [← hqb, hq])]
          rfl
      | false =>
          rw [List.find?_cons_of_neg _ (by simp [hq]), List.map_cons,
            List.find?_cons_of_neg _ (by rw [← hqb]; simp [hq]),
            ← ih (fun x hx => h x (List.mem_cons_of_mem _ hx))]

lemma natCast_foldl_max : ∀ (ns : List ℕ) (a : ℕ),
    (List.map (fun n : ℕ => (n : ℚ)) ns).foldl max ((a : ℕ) : ℚ) =
      ((ns.foldl max a : ℕ) : ℚ) := by
  intro ns
  induction ns with
  | nil => intro a; rfl
  | cons n ns ih =>
      intro a
      rw [List.map_cons, List.foldl_cons, List.foldl_cons, ← Nat.cast_max, ih]

lemma nat_init_le_foldl_max : ∀ (ns : List ℕ) (a : ℕ), a ≤ ns.foldl max a := by
  intro ns
  induction ns with
  | nil => intro a; exact le_refl a
  | cons n ns ih =>
      intro a
      rw [List.foldl_cons]
      exact le_trans (le_max_left a n) (ih _)

lemma nat_le_foldl_max : ∀ (ns : List ℕ) (a x : ℕ), x ∈ ns → x ≤ ns.foldl max a := by
  intro ns
  induction ns with
  | nil => intro a x hx; simp at hx
  | cons n ns ih =>
      intro a x hx
      rw [List.foldl_cons]
      rcases List.mem_cons.mp hx with rfl | hx
      · exact le_trans (le_max_right a x) (nat_init_le_foldl_max ns _)
      · exact ih (max a n) x hx

lemma foldl_skip_eq_filterMap (p : Vec2 → Bool) (img : Vec2 → Vec4) :
    ∀ (l : List Vec2) (b : List (Vec4 × ℚ)),
      l.foldl (fun buckets s => if p s then tallyStep buckets (img s) else buckets) b =
        (l.filterMap (fun s => if p s then some (img s) else none)).foldl tallyStep b := by
  intro l
  induction l with
  | nil => intro b; rfl
  | cons s l ih =>
      intro b
      rw [List.foldl_cons, List.filterMap_cons]
      by_cases h : p s = true
      · rw [if_pos h, if_pos h, List.foldl_cons, ih]
      · rw [if_neg h, if_neg h, ih]

lemma tallyLoop_eq_matched (e cellHeight cellWidth : ℕ) (U : ColorSampleUniforms) (i0 : Vec2) :
    tallyLoop e cellHeight cellWidth U i0 =
      (matchedColors cellHeight cellWidth U i0).foldl tallyStep (initBuckets e) := by
  unfold tallyLoop matchedColors
  exact foldl_skip_eq_filterMap _ _ _ _

/-- C5: when a cell's matched sub-samples hold at most the bucket capacity
of distinct colors, the Color Sampler returns exactly the first color — in
the fixed sub-sample traversal order — to reach the maximal tally
(deterministic tie-break), and running the sampler twice on identical
inputs yields identical output. -/
theorem C5_colorSample_deterministic_tiebreak (e cellHeight cellWidth : ℕ)
    (U : ColorSampleUniforms) (fragCoord : Vec2)
    (hne : matchedColors cellHeight cellWidth U ⟨qfloor fragCoord.x, qfloor fragCoord.y⟩ ≠ [])
    (hlen : (firstOccurrences (matchedColors cellHeight cellWidth U
        ⟨qfloor fragCoord.x, qfloor fragCoord.y⟩)).length ≤ e) :
    colorSampleMain e cellHeight cellWidth U fragCoord =
      ⟨(specSelectedColor (matchedColors cellHeight cellWidth U
          ⟨qfloor fragCoord.x, qfloor fragCoord.y⟩)).1,
        (specSelectedColor (matchedColors cellHeight cellWidth U
          ⟨qfloor fragCoord.x, qfloor fragCoord.y⟩)).2.1,
        (specSelectedColor (matchedColors cellHeight cellWidth U
          ⟨qfloor fragCoord.x, qfloor fragCoord.y⟩)).2.2, 1⟩ ∧
    colorSampleMain e cellHeight cellWidth U fragCoord =
      colorSampleMain e cellHeight cellWidth U fragCoord := by
  refine ⟨?_, rfl⟩
  set l := matchedColors cellHeight cellWidth U ⟨qfloor fragCoord.x, qfloor fragCoord.y⟩
    with hldef
  obtain ⟨P, hB, hr, hs⟩ := tally_invariant e l hlen
  have hsel : selectMax (l.foldl tallyStep (initBuckets e)) =
      (listMaxQ 0 P, pickFirst 0 ⟨0, 0, 0, 0⟩ P) := by
    rw [hB, selectMax_eq_pair]
    refine congrArg₂ _ ?_ ?_
    · rw [listMaxQ_append, listMaxQ_replicate_zero _ _ (le_listMaxQ P 0)]
    · rw [pickFirst_append]
      rw [pickFirst_no_exceed _ _ _ ?_]
      intro x hx
      rw [List.eq_of_mem_replicate hx]
      exact le_listMaxQ P 0
  have hcnt2 : P.map Prod.snd = P.map (fun b => ((countColor l (rgb b.1) : ℕ) : ℚ)) := by
    rw [hs, ← hr, List.map_map]
    rfl
  have hMT : listMaxQ 0 P = ((maxTally l : ℕ) : ℚ) := by
    have h0 : listMaxQ 0 P = (P.map Prod.snd).foldl max 0 :=
      (List.foldl_map _ _ _ _).symm
    rw [h0, hs]
    have hmm : (firstOccurrences l).map (fun c => ((countColor l c : ℕ) : ℚ)) =
        List.map (fun n : ℕ => (n : ℚ)) ((firstOccurrences l).map (countColor l)) := by
      rw [List.map_map]
      rfl
    rw [hmm]
    have hc := natCast_foldl_max ((firstOccurrences l).map (countColor l)) 0
    simpa using hc
  have h1le : 1 ≤ maxTally l := by
    obtain ⟨x, hx⟩ := List.exists_mem_of_ne_nil l hne
    have hxm : rgb x ∈ firstOccurrences l := (firstOccurrences_mem l (rgb x)).mpr ⟨x, hx, rfl⟩
    have hcle : countColor l (rgb x) ≤ maxTally l :=
      nat_le_foldl_max _ 0 _ (List.mem_map_of_mem (countColor l) hxm)
    exact le_trans (countColor_pos_of_mem l (rgb x) hxm) hcle
  have hMpos : (0 : ℚ) < listMaxQ 0 P := by
    rw [hMT]
    exact_mod_cast Nat.lt_of_lt_of_le Nat.zero_lt_one h1le
  obtain ⟨b, hfind, hpick⟩ := pickFirst_eq_find P 0 ⟨0, 0, 0, 0⟩ hMpos
  have hpt : ∀ x ∈ P, decide (listMaxQ 0 P ≤ x.2) =
      decide (maxTally l ≤ countColor l (rgb x.1)) := by
    intro x hx
    refine decide_eq_decide.mpr ?_
    rw [map_eq_map_mem _ _ P hcnt2 x hx, hMT]
    exact_mod_cast Iff.rfl
  have hcorr := find?_map_rgb (fun b => decide (listMaxQ 0 P ≤ b.2))
    (fun c => decide (maxTally l ≤ countColor l c)) P hpt
  rw [hfind, hr] at hcorr
  have hspec : specSelectedColor l = rgb b.1 := by
    unfold specSelectedColor
    rw [← hcorr]
    rfl
  have hcond : ¬ (U.colorRank = 2 ∧
      ((listMaxQ 0 P, pickFirst 0 (⟨0, 0, 0, 0⟩ : Vec4) P) : ℚ × Vec4).1 = 0) := by
    rintro ⟨-, h0⟩
    exact (ne_of_gt hMpos) h0
  simp only [colorSampleMain]
  rw [tallyLoop_eq_matched, ← hldef, hsel, if_neg hcond, hpick, hspec]
  rfl

/-- C6: in a cell where zero sub-samples match the requested color rank,
the sampler with rank 2 falls back to the source pixel sampled at the
cell's center (with alpha forced to 1), whereas the sampler with rank 1
has no such special case and returns the zero-initialized bucket value,
i.e. opaque black. -/
theorem C6_colorSample_rank_fallback (e cellHeight cellWidth : ℕ)
    (U : ColorSampleUniforms) (fragCoord : Vec2)
    (hempty : matchedColors cellHeight cellWidth U
      ⟨qfloor fragCoord.x, qfloor fragCoord.y⟩ = []) :
    (U.colorRank = 2 → colorSampleMain e cellHeight cellWidth U fragCoord =
      ⟨(centerSample U ⟨qfloor fragCoord.x, qfloor fragCoord.y⟩).x,
       (centerSample U ⟨qfloor fragCoord.x, qfloor fragCoord.y⟩).y,
       (centerSample U ⟨qfloor fragCoord.x, qfloor fragCoord.y⟩).z, 1⟩) ∧
    (U.colorRank = 1 → colorSampleMain e cellHeight cellWidth U fragCoord =
      ⟨0, 0, 0, 1⟩) := by
  have hTL : tallyLoop e cellHeight cellWidth U ⟨qfloor fragCoord.x, qfloor fragCoord.y⟩ =
      initBuckets e := by
    rw [tallyLoop_eq_matched, hempty]
    rfl
  have hsel : selectMax (initBuckets e) = (0, ⟨0, 0, 0, 0⟩) := by
    rw [selectMax_eq_pair]
    refine congrArg₂ _ ?_ ?_
    · exact listMaxQ_replicate_zero e 0 (le_refl 0)
    · refine pickFirst_no_exceed _ _ _ ?_
      intro x hx
      rw [List.eq_of_mem_replicate hx]
  constructor
  · intro hrk
    simp only [colorSampleMain]
    rw [hTL, hsel, if_pos ⟨hrk, rfl⟩]
  · intro hrk
    have hcond : ¬ (U.colorRank = 2 ∧
        (((0 : ℚ), (⟨0, 0, 0, 0⟩ : Vec4)) : ℚ × Vec4).1 = 0) := by
      rintro ⟨h2, -⟩
      rw [hrk] at h2
      exact absurd h2 (by norm_num)
    simp only [colorSampleMain]
    rw [hTL, hsel, if_neg hcond]

/-- C5 witness: a 1×2 sub-sample cell seeing red then green (tallies 1–1)
returns red, the first color to reach the maximal tally. -/
theorem C5_colorSample_deterministic_tiebreak_witness :
    colorSampleMain 16 1 2
      ⟨(fun p => if p.y < (1 : ℚ)/2 then ⟨1, 0, 0, 1⟩ else ⟨0, 1, 0, 1⟩),
       (fun _ => ⟨1, 0, 0, 1⟩), ⟨2, 1⟩, 1, 1, 1⟩ ⟨0, 0⟩ =
      ⟨(specSelectedColor (matchedColors 1 2
          ⟨(fun p => if p.y < (1 : ℚ)/2 then ⟨1, 0, 0, 1⟩ else ⟨0, 1, 0, 1⟩),
           (fun _ => ⟨1, 0, 0, 1⟩), ⟨2, 1⟩, 1, 1, 1⟩ ⟨qfloor 0, qfloor 0⟩)).1,
        (specSelectedColor (matchedColors 1 2
          ⟨(fun p => if p.y < (1 : ℚ)/2 then ⟨1, 0, 0, 1⟩ else ⟨0, 1, 0, 1⟩),
           (fun _ => ⟨1, 0, 0, 1⟩), ⟨2, 1⟩, 1, 1, 1⟩ ⟨qfloor 0, qfloor 0⟩)).2.1,
        (specSelectedColor (matchedColors 1 2
          ⟨(fun p => if p.y < (1 : ℚ)/2 then ⟨1, 0, 0, 1⟩ else ⟨0, 1, 0, 1⟩),
           (fun _ => ⟨1, 0, 0, 1⟩), ⟨2, 1⟩, 1, 1, 1⟩ ⟨qfloor 0, qfloor 0⟩)).2.2, 1⟩ ∧
    colorSampleMain 16 1 2
      ⟨(fun p => if p.y < (1 : ℚ)/2 then ⟨1, 0, 0, 1⟩ else ⟨0, 1, 0, 1⟩),
       (fun _ => ⟨1, 0, 0, 1⟩), ⟨2, 1⟩, 1, 1, 1⟩ ⟨0, 0⟩ =
    colorSampleMain 16 1 2
      ⟨(fun p => if p.y < (1 : ℚ)/2 then ⟨1, 0, 0, 1⟩ else ⟨0, 1, 0, 1⟩),
       (fun _ => ⟨1, 0, 0, 1⟩), ⟨2, 1⟩, 1, 1, 1⟩ ⟨0, 0⟩ := by
  refine C5_colorSample_deterministic_tiebreak 16 1 2
    ⟨(fun p => if p.y < (1 : ℚ)/2 then ⟨1, 0, 0, 1⟩ else ⟨0, 1, 0, 1⟩),
     (fun _ => ⟨1, 0, 0, 1⟩), ⟨2, 1⟩, 1, 1, 1⟩ ⟨0, 0⟩ ?_ ?_
  · norm_num [matchedColors, csSampleCoords, csSampleCoord, matchesRank, qfloor, qclamp,
      List.range_succ, List.range_zero, List.filterMap_cons, List.filterMap_nil]
    exact List.cons_ne_nil _ _
  · norm_num [matchedColors, csSampleCoords, csSampleCoord, matchesRank, qfloor, qclamp,
      List.range_succ, List.range_zero, List.filterMap_cons, List.filterMap_nil,
      firstOccurrences, rgb]

/-- C6 witness: with no rank-2 match (uniformly white mask) the secondary
sampler returns the center-sampled source pixel; with no rank-1 match
(uniformly black mask) the primary sampler returns opaque black. -/
theorem C6_colorSample_rank_fallback_witness :
    colorSampleMain 16 1 1
      ⟨(fun _ => ⟨3/10, 2/5, 1/2, 1⟩), (fun _ => ⟨1, 0, 0, 1⟩), ⟨1, 1⟩, 1, 1, 2⟩ ⟨0, 0⟩ =
      ⟨(centerSample ⟨(fun _ => ⟨3/10, 2/5, 1/2, 1⟩), (fun _ => ⟨1, 0, 0, 1⟩),
          ⟨1, 1⟩, 1, 1, 2⟩ ⟨qfloor 0, qfloor 0⟩).x,
       (centerSample ⟨(fun _ => ⟨3/10, 2/5, 1/2, 1⟩), (fun _ => ⟨1, 0, 0, 1⟩),
          ⟨1, 1⟩, 1, 1, 2⟩ ⟨qfloor 0, qfloor 0⟩).y,
       (centerSample ⟨(fun _ => ⟨3/10, 2/5, 1/2, 1⟩), (fun _ => ⟨1, 0, 0, 1⟩),
          ⟨1, 1⟩, 1, 1, 2⟩ ⟨qfloor 0, qfloor 0⟩).z, 1⟩ ∧
    colorSampleMain 16 1 1
      ⟨(fun _ => ⟨3/10, 2/5, 1/2, 1⟩), (fun _ => ⟨0, 0, 0, 1⟩), ⟨1, 1⟩, 1, 1, 1⟩ ⟨0, 0⟩ =
      ⟨0, 0, 0, 1⟩ := by
  constructor
  · refine (C6_colorSample_rank_fallback 16 1 1
      ⟨(fun _ => ⟨3/10, 2/5, 1/2, 1⟩), (fun _ => ⟨1, 0, 0, 1⟩), ⟨1, 1⟩, 1, 1, 2⟩ ⟨0, 0⟩
      ?_).1 rfl
    norm_num [matchedColors, csSampleCoords, csSampleCoord, matchesRank, qfloor, qclamp,
      List.range_succ, List.range_zero, List.filterMap_cons, List.filterMap_nil]
  · refine (C6_colorSample_rank_fallback 16 1 1
      ⟨(fun _ => ⟨3/10, 2/5, 1/2, 1⟩), (fun _ => ⟨0, 0, 0, 1⟩), ⟨1, 1⟩, 1, 1, 1⟩ ⟨0, 0⟩
      ?_).2 rfl
    norm_num [matchedColors, csSampleCoords, csSampleCoord, matchesRank, qfloor, qclamp,
      List.range_succ, List.range_zero, List.filterMap_cons, List.filterMap_nil]

end Accurate
